import Mathlib

/-!
discordgo-scm: the slash-command / interaction manager.

A shallow embedding of `scm.go`.

* Go pointers that the program dereferences without a check are modelled as
  `Option` where the data model lets them be absent (`Feature.ApplicationCommand`),
  and a dereference of an absent one is the outcome `Run.panicked`.
* The router is stateful: every operation takes the `SCM` value before the call and
  returns the `SCM` value after it.
* The chat platform is outside the program.  It is a deterministic machine `Remote ρ`
  over an arbitrary state `ρ`; every remote call the router issues is also written to
  a trace (`RemoteCall`), so that "which calls were made, in which order" is a value.
* A handler is an abstract value of a type `η`; what the router does with handlers is
  recorded as the list of `HandlerCall`s it makes.
* Pointers the data model requires to be set are taken as set: the elements of
  `Features`, the handler of a Feature, the session with its `State.User`, the event,
  and the records the platform returns.  The bookkeeping map is an initialised map, as
  `NewSCM` makes it.
* The inbound event belongs to the client library.  The router reads three things from
  it: `i.Type`, `i.MessageComponentData()` and `i.ApplicationCommandData()`.  The two
  accessors can fail, so the event is modelled by these three observations, the last
  two optional.  The comparison of line 122 needs both of its operands; Go does not fix
  which is evaluated first, and a failure of either is the one outcome `Run.panicked`.
  The library's accessors answer only on an event of their own kind; the events it can
  deliver are singled out by `InteractionCreate.Deliverable`.
* The program takes no lock.  Calls that overlap in time are modelled by splitting
  `CreateCommands` into its check, its remote call and its map write, and letting two
  calls take these steps in any order (`Concurrent`).
-/

namespace DiscordgoScm

/-! ## Values of the client library -/

/-- The library type `discordgo.InteractionType` (an unsigned byte); only equality is
ever used on it. -/
abbrev InteractionType := Nat

/-- Constant `discordgo.InteractionApplicationCommand`. -/
abbrev InteractionTypeApplicationCommand : InteractionType := 2

/-- Constant `discordgo.InteractionMessageComponent`. -/
abbrev InteractionTypeMessageComponent : InteractionType := 3

/-- Constant `discordgo.InteractionApplicationCommandAutocomplete`. -/
abbrev InteractionTypeCommandAutocomplete : InteractionType := 4

/-- Constant `discordgo.InteractionModalSubmit`. -/
abbrev InteractionTypeModalSubmit : InteractionType := 5

/-- A command record `discordgo.ApplicationCommand`.  The router reads `Name` (dispatch)
and `ID` (bookkeeping); everything else in the record is carried along untouched and is
represented by `Description`. -/
structure ApplicationCommand where
  ID : String
  Name : String
  Description : String
  deriving DecidableEq, Repr

/-- What `i.ApplicationCommandData()` returns. -/
structure ApplicationCommandInteractionData where
  ID : String
  Name : String
  deriving DecidableEq, Repr

/-- What `i.MessageComponentData()` returns. -/
structure MessageComponentInteractionData where
  CustomID : String
  deriving DecidableEq, Repr

/-- The inbound event `*discordgo.InteractionCreate`, as the router observes it: its
`Type`, and the results of the two accessor calls, `none` when the call fails. -/
structure InteractionCreate where
  Type_ : InteractionType
  MessageComponentData : Option MessageComponentInteractionData
  ApplicationCommandData : Option ApplicationCommandInteractionData
  deriving DecidableEq, Repr

/-- The bot user of a session: `s.State.User`. -/
structure User where
  ID : String
  deriving DecidableEq, Repr

/-- The session state: `s.State`. -/
structure State where
  User : User
  deriving DecidableEq, Repr

/-- The session handle `*discordgo.Session`, a started one (`s.State.User` is set, as
the note on `CreateCommands` requires). -/
structure Session where
  State : State
  deriving DecidableEq, Repr

/-- An error reported by a remote call. -/
structure RemoteError where
  text : String
  deriving DecidableEq, Repr

/-- A Go `error` value returned by the router: one it made itself with `errors.New`, or
the one a remote call returned, handed on as it is. -/
inductive Error where
  | errorsNew (text : String)
  | remote (e : RemoteError)
  deriving DecidableEq, Repr

/-- The platform behind the session, as a deterministic machine on a state `ρ`: the two
API methods the router calls.  Both take the remote state, the application id, the
guild id and their argument, and return the next remote state with the answer. -/
structure Remote (ρ : Type) where
  ApplicationCommandBulkOverwrite :
    ρ → String → String → List (Option ApplicationCommand) →
      ρ × Except RemoteError (List ApplicationCommand)
  ApplicationCommandDelete : ρ → String → String → String → ρ × Option RemoteError

/-- One call on the platform API, as written to the trace. -/
inductive RemoteCall where
  | bulkOverwrite (appID guildID : String) (commands : List (Option ApplicationCommand))
  | delete (appID guildID cmdID : String)
  deriving DecidableEq, Repr

/-! ## The program: `scm.go` -/

/-- The `Feature` struct (lines 18-28). `ApplicationCommand` is a pointer and may be nil. -/
structure Feature (η : Type) where
  Type_ : InteractionType
  Handler : η
  ApplicationCommand : Option ApplicationCommand
  CustomID : String
  deriving DecidableEq, Repr

/-- The `SCM` struct (lines 33-36): the registry and the bookkeeping map from
application id to the ids of the commands created for it. -/
structure SCM (η : Type) where
  Features : List (Feature η)
  botCommandIDs : String → Option (List String)

/-- The constructor `NewSCM` (lines 39-44). -/
def NewSCM {η : Type} : SCM η :=
  { Features := [], botCommandIDs := fun _ => none }

/-- Method `AddFeature` (lines 47-49). -/
def AddFeature {η : Type} (scm : SCM η) (feature : Feature η) : SCM η :=
  { scm with Features := scm.Features ++ [feature] }

/-- Method `AddFeatures` (lines 52-54). -/
def AddFeatures {η : Type} (scm : SCM η) (features : List (Feature η)) : SCM η :=
  { scm with Features := scm.Features ++ features }

/-- What a registration operation leaves behind: the router, the remote state, the
returned `error` (`none` for nil) and the remote calls issued, in order. -/
structure Outcome (η ρ : Type) where
  scm : SCM η
  remote : ρ
  err : Option Error
  calls : List RemoteCall

/-- The loop of lines 70-74, with `acc` the slice `applicationCommands` so far. -/
def collectApplicationCommands {η : Type} :
    List (Feature η) → List (Option ApplicationCommand) → List (Option ApplicationCommand)
  | [], acc => acc
  | f :: fs, acc =>
    if f.Type_ = InteractionTypeApplicationCommand
        ∨ f.Type_ = InteractionTypeCommandAutocomplete then
      collectApplicationCommands fs (acc ++ [f.ApplicationCommand])
    else
      collectApplicationCommands fs acc

/-- The loop of lines 84-86, with `acc` the slice `createdCommandIDs` so far. -/
def collectCreatedCommandIDs : List ApplicationCommand → List String → List String
  | [], acc => acc
  | cc :: ccs, acc => collectCreatedCommandIDs ccs (acc ++ [cc.ID])

/-- The map write `scm.botCommandIDs[appID] = ids` (line 88). -/
def setBotCommandIDs (m : String → Option (List String)) (appID : String)
    (ids : List String) : String → Option (List String) :=
  fun k => if k = appID then some ids else m k

/-- Method `CreateCommands` (lines 61-91). -/
def CreateCommands {η ρ : Type} (R : Remote ρ) (scm : SCM η) (s : Session)
    (guildID : String) (w : ρ) : Outcome η ρ :=
  let appID := s.State.User.ID
  match scm.botCommandIDs appID with
  | some _ =>
    { scm := scm, remote := w,
      err := some (Error.errorsNew "this application already has registered commands once"),
      calls := [] }
  | none =>
    let applicationCommands := collectApplicationCommands scm.Features []
    match R.ApplicationCommandBulkOverwrite w appID guildID applicationCommands with
    | (w1, Except.error e) =>
      { scm := scm, remote := w1, err := some (Error.remote e),
        calls := [RemoteCall.bulkOverwrite appID guildID applicationCommands] }
    | (w1, Except.ok createdCommands) =>
      let createdCommandIDs := collectCreatedCommandIDs createdCommands []
      { scm := { scm with
                  botCommandIDs := setBotCommandIDs scm.botCommandIDs appID createdCommandIDs },
        remote := w1, err := none,
        calls := [RemoteCall.bulkOverwrite appID guildID applicationCommands] }

/-- The loop of lines 97-101 over the ids still to delete: the remote state after it,
the error it returned early with (if any) and the delete calls it issued. -/
def deleteLoop {ρ : Type} (R : Remote ρ) (appID guildID : String) :
    List String → ρ → ρ × Option Error × List RemoteCall
  | [], w => (w, none, [])
  | ccID :: rest, w =>
    match R.ApplicationCommandDelete w appID guildID ccID with
    | (w1, some e) => (w1, some (Error.remote e), [RemoteCall.delete appID guildID ccID])
    | (w1, none) =>
      let r := deleteLoop R appID guildID rest w1
      (r.1, r.2.1, RemoteCall.delete appID guildID ccID :: r.2.2)

/-- The read `scm.botCommandIDs[appID]` of line 97: a missing key reads as the nil
slice. -/
def recordedIDs {η : Type} (scm : SCM η) (appID : String) : List String :=
  (scm.botCommandIDs appID).getD []

/-- Method `DeleteCommands` (lines 94-104). -/
def DeleteCommands {η ρ : Type} (R : Remote ρ) (scm : SCM η) (s : Session)
    (guildID : String) (w : ρ) : Outcome η ρ :=
  let appID := s.State.User.ID
  let r := deleteLoop R appID guildID (recordedIDs scm appID) w
  { scm := scm, remote := r.1, err := r.2.1, calls := r.2.2 }

/-- How a piece of code ends: with a run-time failure (a nil dereference, or a failing
accessor of the event), or normally with a value. -/
inductive Run (α : Type) where
  | panicked
  | done (a : α)
  deriving DecidableEq, Repr

/-- The loop of lines 112-128: the value of `relevantFeature` when the loop is left. -/
def findRelevantFeature {η : Type} (i : InteractionCreate) :
    List (Feature η) → Run (Option (Feature η))
  | [] => Run.done none
  | f :: fs =>
    if f.Type_ = i.Type_ then
      if i.Type_ = InteractionTypeMessageComponent then
        match i.MessageComponentData with
        | none => Run.panicked
        | some d => if f.CustomID = d.CustomID then Run.done (some f)
                    else findRelevantFeature i fs
      else
        match f.ApplicationCommand with
        | none => Run.panicked
        | some c =>
          match i.ApplicationCommandData with
          | none => Run.panicked
          | some d => if c.Name = d.Name then Run.done (some f)
                      else findRelevantFeature i fs
    else findRelevantFeature i fs

/-- One invocation `Handler(s, i)` made by the router. -/
structure HandlerCall (η : Type) where
  handler : η
  session : Session
  event : InteractionCreate
  deriving DecidableEq, Repr

/-- What a dispatch leaves behind: the router, the handler invocations it made (or the
failure it ended with) and the remote calls it issued. -/
structure Dispatch (η : Type) where
  scm : SCM η
  result : Run (List (HandlerCall η))
  calls : List RemoteCall

/-- Method `HandleInteractionCreate` (lines 108-134). -/
def HandleInteractionCreate {η : Type} (scm : SCM η) (s : Session)
    (i : InteractionCreate) : Dispatch η :=
  match findRelevantFeature i scm.Features with
  | Run.panicked => { scm := scm, result := Run.panicked, calls := [] }
  | Run.done none => { scm := scm, result := Run.done [], calls := [] }
  | Run.done (some relevantFeature) =>
    { scm := scm,
      result := Run.done [{ handler := relevantFeature.Handler, session := s, event := i }],
      calls := [] }

/-- The remote state after delete calls for `ids` have been issued in order from `w`. -/
def afterDeletes {ρ : Type} (R : Remote ρ) (appID guildID : String) : List String → ρ → ρ
  | [], w => w
  | ccID :: rest, w =>
    afterDeletes R appID guildID rest (R.ApplicationCommandDelete w appID guildID ccID).1

/-- The platform's answer to the delete of the `k`-th id of `ids`, when it is issued
after the deletes of the ids before it (`none`: the delete succeeds). -/
def deleteAnswer {ρ : Type} (R : Remote ρ) (appID guildID : String) (ids : List String)
    (w : ρ) (k : Nat) : Option RemoteError :=
  match ids.get? k with
  | none => none
  | some ccID =>
    (R.ApplicationCommandDelete (afterDeletes R appID guildID (ids.take k) w)
      appID guildID ccID).2

/-- One call on the router, with its arguments. -/
inductive Op (η : Type) where
  | addFeature (feature : Feature η)
  | addFeatures (features : List (Feature η))
  | createCommands (s : Session) (guildID : String)
  | deleteCommands (s : Session) (guildID : String)
  | handleInteractionCreate (s : Session) (i : InteractionCreate)

/-- The Features a call hands to the registry. -/
def Op.added {η : Type} : Op η → List (Feature η)
  | Op.addFeature feature => [feature]
  | Op.addFeatures features => features
  | Op.createCommands _ _ => []
  | Op.deleteCommands _ _ => []
  | Op.handleInteractionCreate _ _ => []

/-- Perform one call on the router `scm` with the platform in state `w`. -/
def Op.apply {η ρ : Type} (R : Remote ρ) : Op η → SCM η → ρ → Outcome η ρ
  | Op.addFeature feature, scm, w =>
    { scm := AddFeature scm feature, remote := w, err := none, calls := [] }
  | Op.addFeatures features, scm, w =>
    { scm := AddFeatures scm features, remote := w, err := none, calls := [] }
  | Op.createCommands s guildID, scm, w => CreateCommands R scm s guildID w
  | Op.deleteCommands s guildID, scm, w => DeleteCommands R scm s guildID w
  | Op.handleInteractionCreate s i, scm, w =>
    { scm := (HandleInteractionCreate scm s i).scm, remote := w, err := none,
      calls := (HandleInteractionCreate scm s i).calls }

/-- Perform a sequence of calls in order: the router and the remote state at the end,
and the log of the calls, each with the `error` it returned. -/
def runOps {η ρ : Type} (R : Remote ρ) :
    List (Op η) → SCM η → ρ → SCM η × ρ × List (Op η × Option Error)
  | [], scm, w => (scm, w, [])
  | op :: ops, scm, w =>
    let o := op.apply R scm w
    let r := runOps R ops o.scm o.remote
    (r.1, r.2.1, (op, o.err) :: r.2.2)

/-- The number of `CreateCommands` calls of a log that were made for the identity
`appID` and returned nil. -/
def successfulCreates {η : Type} (appID : String) : List (Op η × Option Error) → Nat
  | [] => 0
  | (Op.createCommands s _, none) :: rest =>
    (if s.State.User.ID = appID then 1 else 0) + successfulCreates appID rest
  | _ :: rest => successfulCreates appID rest

/-! ## Overlapping `CreateCommands` calls

`CreateCommands` takes no lock (the `SCM` struct has none).  Between its check of the
map (line 64), its call on the platform (line 76) and its write of the map (line 88)
another call on the same router can run.  The definitions below split one call into
these three steps and let two calls take steps in any order. -/

/-- Where a running `CreateCommands` call stands: before the check of lines 62-66; past
the check, before the bulk overwrite of lines 68-80; past a bulk overwrite that returned
`createdCommands`, before the bookkeeping of lines 82-90; or returned with `err`. -/
inductive Phase where
  | atCheck
  | atOverwrite
  | atRecord (createdCommands : List ApplicationCommand)
  | returned (err : Option Error)
  deriving DecidableEq, Repr

/-- A running `CreateCommands` call: its arguments and where it stands. -/
structure Call where
  s : Session
  guildID : String
  phase : Phase
  deriving DecidableEq, Repr

/-- What the running calls share: the router, the platform, and the trace of the remote
calls issued so far. -/
structure World (η ρ : Type) where
  scm : SCM η
  remote : ρ
  calls : List RemoteCall

/-- One step of a running `CreateCommands` call on the shared world: the check, the bulk
overwrite, or the bookkeeping; a call that has returned does nothing. -/
def stepCreateCommands {η ρ : Type} (R : Remote ρ) (c : Call) (σ : World η ρ) :
    Call × World η ρ :=
  match c.phase with
  | Phase.atCheck =>
    match σ.scm.botCommandIDs c.s.State.User.ID with
    | some _ =>
      let err := Error.errorsNew "this application already has registered commands once"
      ({ c with phase := Phase.returned (some err) }, σ)
    | none => ({ c with phase := Phase.atOverwrite }, σ)
  | Phase.atOverwrite =>
    let applicationCommands := collectApplicationCommands σ.scm.Features []
    match R.ApplicationCommandBulkOverwrite σ.remote c.s.State.User.ID c.guildID
        applicationCommands with
    | (w1, Except.error e) =>
      ({ c with phase := Phase.returned (some (Error.remote e)) },
        { σ with remote := w1,
                 calls := σ.calls ++ [RemoteCall.bulkOverwrite c.s.State.User.ID c.guildID
                            applicationCommands] })
    | (w1, Except.ok createdCommands) =>
      ({ c with phase := Phase.atRecord createdCommands },
        { σ with remote := w1,
                 calls := σ.calls ++ [RemoteCall.bulkOverwrite c.s.State.User.ID c.guildID
                            applicationCommands] })
  | Phase.atRecord createdCommands =>
    ({ c with phase := Phase.returned none },
      { σ with scm := { σ.scm with
                  botCommandIDs := setBotCommandIDs σ.scm.botCommandIDs c.s.State.User.ID
                    (collectCreatedCommandIDs createdCommands []) } })
  | Phase.returned _ => (c, σ)

/-- Two running `CreateCommands` calls, named `false` and `true`, on one shared world. -/
structure Concurrent (η ρ : Type) where
  thread : Bool → Call
  world : World η ρ

/-- The call `t` takes its next step. -/
def Concurrent.step {η ρ : Type} (R : Remote ρ) (σ : Concurrent η ρ) (t : Bool) :
    Concurrent η ρ :=
  { thread := fun u =>
      if u = t then (stepCreateCommands R (σ.thread t) σ.world).1 else σ.thread u,
    world := (stepCreateCommands R (σ.thread t) σ.world).2 }

/-- The calls take steps in the order the schedule lists them. -/
def Concurrent.run {η ρ : Type} (R : Remote ρ) :
    List Bool → Concurrent η ρ → Concurrent η ρ
  | [], σ => σ
  | t :: ts, σ => Concurrent.run R ts (σ.step R t)

/-- Two calls about to start, `false` with `(sA, guildA)` and `true` with
`(sB, guildB)`, on the router `scm` with the platform in state `w`. -/
def Concurrent.start {η ρ : Type} (scm : SCM η) (w : ρ) (sA : Session) (guildA : String)
    (sB : Session) (guildB : String) : Concurrent η ρ :=
  { thread := fun t =>
      match t with
      | false => { s := sA, guildID := guildA, phase := Phase.atCheck }
      | true => { s := sB, guildID := guildB, phase := Phase.atCheck },
    world := { scm := scm, remote := w, calls := [] } }

/-- Every call that has returned nil has a bookkeeping entry for its identity. -/
def Concurrent.Recorded {η ρ : Type} (σ : Concurrent η ρ) : Prop :=
  ∀ t, (σ.thread t).phase = Phase.returned none →
    σ.world.scm.botCommandIDs (σ.thread t).s.State.User.ID ≠ none

/-! ## Vocabulary of the specification -/

/-- The discriminator a Feature offers, by its own kind: its `CustomID` when it is a
MessageComponent Feature, the name of its ApplicationCommand (if it has one) for every
other kind. -/
def Feature.discriminator {η : Type} (f : Feature η) : Option String :=
  if f.Type_ = InteractionTypeMessageComponent then some f.CustomID
  else f.ApplicationCommand.map (fun c => c.Name)

/-- The discriminator an event carries, by its kind: the component identifier for a
MessageComponent event, the command name for every other kind; `none` when the event
does not let the router read it. -/
def InteractionCreate.discriminator (i : InteractionCreate) : Option String :=
  if i.Type_ = InteractionTypeMessageComponent then
    i.MessageComponentData.map (fun d => d.CustomID)
  else
    i.ApplicationCommandData.map (fun d => d.Name)

/-- A Feature matches an event: it has the event's kind, it has a discriminator, and
that discriminator is the event's (exact string equality). -/
def Matches {η : Type} (f : Feature η) (i : InteractionCreate) : Prop :=
  f.Type_ = i.Type_ ∧ f.discriminator ≠ none ∧ f.discriminator = i.discriminator

instance {η : Type} (f : Feature η) (i : InteractionCreate) : Decidable (Matches f i) := by
  unfold Matches; infer_instance

/-- The scan can read what it compares at Feature `f`: when `f` has the event's kind,
both `f` and the event have the discriminator of that kind. -/
def Readable {η : Type} (f : Feature η) (i : InteractionCreate) : Prop :=
  f.Type_ = i.Type_ → f.discriminator ≠ none ∧ i.discriminator ≠ none

instance {η : Type} (f : Feature η) (i : InteractionCreate) : Decidable (Readable f i) := by
  unfold Readable; infer_instance

/-- The command specs the specification says are published: the ApplicationCommand of
every Feature whose kind is Command or Autocomplete, in registry order. -/
def commandSpecs {η : Type} (fs : List (Feature η)) : List (Option ApplicationCommand) :=
  (fs.filter (fun f => decide (f.Type_ = InteractionTypeApplicationCommand
      ∨ f.Type_ = InteractionTypeCommandAutocomplete))).map (fun f => f.ApplicationCommand)

/-- The error `CreateCommands` makes for an identity that is already registered. -/
def errAlreadyRegistered : Error :=
  Error.errorsNew "this application already has registered commands once"

/-- Two Features that differ at most in a field the data model calls unused for their
kind: they have the same kind and handler, the same `CustomID` when they are
MessageComponent Features, and the same ApplicationCommand when they are Command or
Autocomplete Features. -/
def SameUpToUnused {η : Type} (f g : Feature η) : Prop :=
  f.Type_ = g.Type_ ∧ f.Handler = g.Handler
    ∧ (f.Type_ = InteractionTypeMessageComponent → f.CustomID = g.CustomID)
    ∧ (f.Type_ = InteractionTypeApplicationCommand
        ∨ f.Type_ = InteractionTypeCommandAutocomplete →
          f.ApplicationCommand = g.ApplicationCommand)

instance {η : Type} [DecidableEq η] (f g : Feature η) : Decidable (SameUpToUnused f g) := by
  unfold SameUpToUnused; infer_instance

/-- An event as the client library delivers it.  The accessors of the library check the
kind of the event before they answer: `MessageComponentData()` answers only on a
MessageComponent event, `ApplicationCommandData()` only on a Command or Autocomplete
event, and each fails on an event of any other kind. -/
def InteractionCreate.Deliverable (i : InteractionCreate) : Prop :=
  (i.MessageComponentData ≠ none → i.Type_ = InteractionTypeMessageComponent)
    ∧ (i.ApplicationCommandData ≠ none →
        i.Type_ = InteractionTypeApplicationCommand
          ∨ i.Type_ = InteractionTypeCommandAutocomplete)

instance (i : InteractionCreate) : Decidable i.Deliverable := by
  unfold InteractionCreate.Deliverable; infer_instance

/-- A Feature carries the fields the data model requires for its kind: an
ApplicationCommand when it is a Command or Autocomplete Feature.  (The `CustomID` of a
MessageComponent Feature is a string and is always there; a ModalSubmit Feature needs
neither field.) -/
def Feature.WellFormed {η : Type} (f : Feature η) : Prop :=
  f.Type_ = InteractionTypeApplicationCommand ∨ f.Type_ = InteractionTypeCommandAutocomplete →
    f.ApplicationCommand ≠ none

instance {η : Type} (f : Feature η) : Decidable f.WellFormed := by
  unfold Feature.WellFormed; infer_instance

/-- The event is of one of the four kinds. -/
def InteractionCreate.KnownKind (i : InteractionCreate) : Prop :=
  i.Type_ = InteractionTypeApplicationCommand ∨ i.Type_ = InteractionTypeMessageComponent
    ∨ i.Type_ = InteractionTypeCommandAutocomplete ∨ i.Type_ = InteractionTypeModalSubmit

instance (i : InteractionCreate) : Decidable i.KnownKind := by
  unfold InteractionCreate.KnownKind; infer_instance

/-! ## Sample data -/

/-- A started session of the application "app". -/
def sampleSession : Session := { State := { User := { ID := "app" } } }

/-- A command spec named `name`, not yet registered (no id). -/
def sampleCommand (name : String) : ApplicationCommand :=
  { ID := "", Name := name, Description := "" }

/-- A Command event for the command `name`. -/
def commandEvent (name : String) : InteractionCreate :=
  { Type_ := InteractionTypeApplicationCommand, MessageComponentData := none,
    ApplicationCommandData := some { ID := "1", Name := name } }

/-- A MessageComponent event of the component `customID`. -/
def componentEvent (customID : String) : InteractionCreate :=
  { Type_ := InteractionTypeMessageComponent,
    MessageComponentData := some { CustomID := customID },
    ApplicationCommandData := none }

/-- A Command Feature with handler `h` for the command `name`. -/
def commandFeature (h : String) (name : String) : Feature String :=
  { Type_ := InteractionTypeApplicationCommand, Handler := h,
    ApplicationCommand := some (sampleCommand name), CustomID := "" }

/-- A MessageComponent Feature with handler `h` for the component `customID`. -/
def componentFeature (h : String) (customID : String) : Feature String :=
  { Type_ := InteractionTypeMessageComponent, Handler := h,
    ApplicationCommand := none, CustomID := customID }

/-- A ModalSubmit Feature with handler `h` and the given ApplicationCommand pointer. -/
def modalFeature (h : String) (c : Option ApplicationCommand) : Feature String :=
  { Type_ := InteractionTypeModalSubmit, Handler := h, ApplicationCommand := c,
    CustomID := "" }

/-- A platform whose state counts the calls made so far.  Its bulk overwrite is refused
on the very first call and afterwards creates every command of the list with the id
"id-" followed by the command name; its delete is refused for the id "id-b". -/
def sampleRemote : Remote Nat where
  ApplicationCommandBulkOverwrite := fun w _ _ commands =>
    (w + 1,
      if w = 0 then Except.error { text := "unavailable" }
      else Except.ok ((commands.filterMap id).map
        (fun c => { c with ID := "id-" ++ c.Name })))
  ApplicationCommandDelete := fun w _ _ ccID =>
    (w + 1, if ccID = "id-b" then some { text := "unknown command" } else none)

/-- A registry with the Command Features "a" and "b" around a MessageComponent Feature,
and no bookkeeping. -/
def sampleSCM : SCM String :=
  { Features := [commandFeature "A" "a", componentFeature "B" "btn1", commandFeature "C" "b"],
    botCommandIDs := fun _ => none }

/-- A router whose bookkeeping holds the ids "id-a", "id-b", "id-c" for "app". -/
def registeredSCM : SCM String :=
  { Features := [commandFeature "A" "a"],
    botCommandIDs := fun k => if k = "app" then some ["id-a", "id-b", "id-c"] else none }

/-- The scenario registry: a Command Feature "ping" and a MessageComponent Feature
"btn1", each with only the field of its kind set. -/
def plainFeatures : List (Feature String) :=
  [commandFeature "A" "ping", componentFeature "B" "btn1"]

/-- The scenario registry again, with the field that is not of its kind filled in on
each Feature: a `CustomID` on the Command Feature, an ApplicationCommand on the
MessageComponent Feature. -/
def noisyFeatures : List (Feature String) :=
  [{ commandFeature "A" "ping" with CustomID := "btn1" },
   { componentFeature "B" "btn1" with ApplicationCommand := some (sampleCommand "ping") }]

/-- A ModalSubmit event: neither accessor the router uses answers on it. -/
def bareModalEvent : InteractionCreate :=
  { Type_ := InteractionTypeModalSubmit, MessageComponentData := none,
    ApplicationCommandData := none }

/-- A started session of a second application, "other". -/
def otherSession : Session := { State := { User := { ID := "other" } } }

/-! ## Dispatch: the scan -/

theorem findRelevantFeature_cons_of_matches {η : Type} (i : InteractionCreate)
    (f : Feature η) (fs : List (Feature η)) (h : Matches f i) :
    findRelevantFeature i (f :: fs) = Run.done (some f) := by
  obtain ⟨ht, hne, heq⟩ := h
  unfold Feature.discriminator at hne heq
  unfold InteractionCreate.discriminator at heq
  unfold findRelevantFeature
  by_cases hmc : i.Type_ = InteractionTypeMessageComponent
  · have hf : f.Type_ = InteractionTypeMessageComponent := ht.trans hmc
    simp only [hf, hmc, if_true] at heq ⊢
    cases hd : i.MessageComponentData with
    | none => simp [hd] at heq
    | some d => simp [hd] at heq; simp [heq]
  · have hf : ¬ f.Type_ = InteractionTypeMessageComponent := fun h => hmc (ht ▸ h)
    simp only [hf, hmc, if_false, ht, if_true] at heq hne ⊢
    cases hc : f.ApplicationCommand with
    | none => simp [hc] at hne
    | some c =>
      cases hd : i.ApplicationCommandData with
      | none => simp [hc, hd] at heq
      | some d => simp [hc, hd] at heq; simp [heq]

theorem findRelevantFeature_cons_of_not_matches {η : Type} (i : InteractionCreate)
    (f : Feature η) (fs : List (Feature η)) (h : ¬ Matches f i) (hr : Readable f i) :
    findRelevantFeature i (f :: fs) = findRelevantFeature i fs := by
  unfold Matches at h
  unfold Readable at hr
  unfold Feature.discriminator at h hr
  unfold InteractionCreate.discriminator at h hr
  rw [findRelevantFeature]
  by_cases ht : f.Type_ = i.Type_
  · by_cases hmc : i.Type_ = InteractionTypeMessageComponent
    · have hf : f.Type_ = InteractionTypeMessageComponent := ht.trans hmc
      have hr2 := hr ht
      simp only [hf, hmc, if_true] at h hr2 ⊢
      cases hd : i.MessageComponentData with
      | none => simp [hd] at hr2
      | some d =>
        simp [hd] at h
        simp [h]
    · have hf : ¬ f.Type_ = InteractionTypeMessageComponent := fun h => hmc (ht ▸ h)
      have hr2 := hr ht
      simp only [hf, hmc, if_false, ht, if_true] at h hr2 ⊢
      cases hc : f.ApplicationCommand with
      | none => simp [hc] at hr2
      | some c =>
        cases hd : i.ApplicationCommandData with
        | none => simp [hd] at hr2
        | some d =>
          simp [hc, hd] at h
          simp [h]
  · simp [ht]

theorem findRelevantFeature_first_match {η : Type} (i : InteractionCreate)
    (pre post : List (Feature η)) (f : Feature η) (hf : Matches f i)
    (hpre : ∀ g ∈ pre, ¬ Matches g i)
    (hread : ∀ g ∈ pre, g.Type_ = i.Type_ → g.discriminator ≠ none) :
    findRelevantFeature i (pre ++ f :: post) = Run.done (some f) := by
  have hi : i.discriminator ≠ none := fun h => hf.2.1 (hf.2.2.trans h)
  induction pre with
  | nil => exact findRelevantFeature_cons_of_matches i f post hf
  | cons g gs ih =>
    have hg : ¬ Matches g i := hpre g (List.mem_cons_self g gs)
    have hr : Readable g i := fun ht => ⟨hread g (List.mem_cons_self g gs) ht, hi⟩
    rw [List.cons_append, findRelevantFeature_cons_of_not_matches i g _ hg hr]
    exact ih (fun x hx => hpre x (List.mem_cons_of_mem g hx))
      (fun x hx => hread x (List.mem_cons_of_mem g hx))

theorem findRelevantFeature_no_match {η : Type} (i : InteractionCreate)
    (fs : List (Feature η)) (hno : ∀ g ∈ fs, ¬ Matches g i)
    (hread : ∀ g ∈ fs, Readable g i) :
    findRelevantFeature i fs = Run.done none := by
  induction fs with
  | nil => rfl
  | cons g gs ih =>
    rw [findRelevantFeature_cons_of_not_matches i g gs (hno g (List.mem_cons_self g gs))
      (hread g (List.mem_cons_self g gs))]
    exact ih (fun x hx => hno x (List.mem_cons_of_mem g hx))
      (fun x hx => hread x (List.mem_cons_of_mem g hx))

/-! ## C1: first match wins -/

/-- C1, as amended.  When the registry is `pre ++ f :: post`, `f` matches the event, no
Feature of `pre` matches it, and every Feature of `pre` that has the event's kind has a
discriminator, `HandleInteractionCreate` completes and invokes exactly one handler,
exactly once, with the given session and event: the handler of `f`.  No handler of
`post` is invoked, whatever `post` holds (also a second Feature with the kind and
discriminator of `f`), and the router issues no remote call and keeps its state. -/
theorem handleInteractionCreate_first_match {η : Type} (scm : SCM η) (s : Session)
    (i : InteractionCreate) (pre post : List (Feature η)) (f : Feature η)
    (hsplit : scm.Features = pre ++ f :: post)
    (hf : Matches f i)
    (hpre : ∀ g ∈ pre, ¬ Matches g i)
    (hread : ∀ g ∈ pre, g.Type_ = i.Type_ → g.discriminator ≠ none) :
    (HandleInteractionCreate scm s i).result
        = Run.done [{ handler := f.Handler, session := s, event := i }]
      ∧ (HandleInteractionCreate scm s i).calls = []
      ∧ (HandleInteractionCreate scm s i).scm = scm := by
  have h := findRelevantFeature_first_match i pre post f hf hpre hread
  rw [← hsplit] at h
  simp [HandleInteractionCreate, h]

/-- Witness for C1: the registry [A, B] of two Command Features both named "dup", and a
Command event named "dup": the handler of A is the one invoked. -/
theorem handleInteractionCreate_first_match_witness :
    (HandleInteractionCreate
        ({ Features := [commandFeature "A" "dup", commandFeature "B" "dup"],
           botCommandIDs := fun _ => none } : SCM String)
        sampleSession (commandEvent "dup")).result
        = Run.done [{ handler := "A", session := sampleSession, event := commandEvent "dup" }]
      ∧ (HandleInteractionCreate
        ({ Features := [commandFeature "A" "dup", commandFeature "B" "dup"],
           botCommandIDs := fun _ => none } : SCM String)
        sampleSession (commandEvent "dup")).calls = []
      ∧ (HandleInteractionCreate
        ({ Features := [commandFeature "A" "dup", commandFeature "B" "dup"],
           botCommandIDs := fun _ => none } : SCM String)
        sampleSession (commandEvent "dup")).scm
        = { Features := [commandFeature "A" "dup", commandFeature "B" "dup"],
            botCommandIDs := fun _ => none } :=
  handleInteractionCreate_first_match
    { Features := [commandFeature "A" "dup", commandFeature "B" "dup"],
      botCommandIDs := fun _ => none }
    sampleSession (commandEvent "dup") [] [commandFeature "B" "dup"]
    (commandFeature "A" "dup") rfl (by decide) (by simp) (by simp)

/-- C1 as stated fails.  (1) On the empty registry no handler is invoked, not exactly
one.  (2) On the registry [M1, M2] of two ModalSubmit Features (M1 without an
ApplicationCommand, M2 with the command "x") a ModalSubmit event makes line 122 fail:
no handler is invoked and the call does not complete.  (3) In the registry [P, B] of
two Command Features, P without an ApplicationCommand and B with the command "dup", B
is the first Feature that matches the Command event named "dup"; the scan fails at P
and the handler of B is not invoked. -/
theorem handleInteractionCreate_not_always_one_handler :
    (HandleInteractionCreate (NewSCM : SCM String) sampleSession (commandEvent "ping")).result
        = Run.done []
      ∧ (bareModalEvent.Deliverable
          ∧ (HandleInteractionCreate
              ({ Features := [modalFeature "M1" none,
                              modalFeature "M2" (some (sampleCommand "x"))],
                 botCommandIDs := fun _ => none } : SCM String)
              sampleSession bareModalEvent).result = Run.panicked)
      ∧ ((commandEvent "dup").Deliverable
          ∧ ¬ Matches ({ commandFeature "P" "dup" with ApplicationCommand := none })
                (commandEvent "dup")
          ∧ Matches (commandFeature "B" "dup") (commandEvent "dup")
          ∧ (HandleInteractionCreate
              ({ Features := [{ commandFeature "P" "dup" with ApplicationCommand := none },
                              commandFeature "B" "dup"],
                 botCommandIDs := fun _ => none } : SCM String)
              sampleSession (commandEvent "dup")).result = Run.panicked) := by
  refine ⟨rfl, ⟨by decide, rfl⟩, ⟨by decide, by decide, by decide, rfl⟩⟩

/-! ## Registration -/

theorem collectApplicationCommands_eq {η : Type} (fs : List (Feature η))
    (acc : List (Option ApplicationCommand)) :
    collectApplicationCommands fs acc = acc ++ commandSpecs fs := by
  induction fs generalizing acc with
  | nil => simp [collectApplicationCommands, commandSpecs]
  | cons f fs ih =>
    unfold collectApplicationCommands
    by_cases h : f.Type_ = InteractionTypeApplicationCommand
        ∨ f.Type_ = InteractionTypeCommandAutocomplete
    · rw [if_pos h, ih]
      simp [commandSpecs, List.filter_cons, h]
    · rw [if_neg h, ih]
      simp [commandSpecs, List.filter_cons, h]

theorem collectCreatedCommandIDs_eq (ccs : List ApplicationCommand) (acc : List String) :
    collectCreatedCommandIDs ccs acc = acc ++ ccs.map (fun cc => cc.ID) := by
  induction ccs generalizing acc with
  | nil => simp [collectCreatedCommandIDs]
  | cons cc ccs ih => simp [collectCreatedCommandIDs, ih]

theorem createCommands_of_registered {η ρ : Type} (R : Remote ρ) (scm : SCM η)
    (s : Session) (guildID : String) (w : ρ) (ids : List String)
    (h : scm.botCommandIDs s.State.User.ID = some ids) :
    CreateCommands R scm s guildID w
      = { scm := scm, remote := w, err := some errAlreadyRegistered, calls := [] } := by
  simp [CreateCommands, h, errAlreadyRegistered]

theorem createCommands_of_error {η ρ : Type} (R : Remote ρ) (scm : SCM η)
    (s : Session) (guildID : String) (w w1 : ρ) (e : RemoteError)
    (h : scm.botCommandIDs s.State.User.ID = none)
    (hR : R.ApplicationCommandBulkOverwrite w s.State.User.ID guildID
            (commandSpecs scm.Features) = (w1, Except.error e)) :
    CreateCommands R scm s guildID w
      = { scm := scm, remote := w1, err := some (Error.remote e),
          calls := [RemoteCall.bulkOverwrite s.State.User.ID guildID
                      (commandSpecs scm.Features)] } := by
  simp [CreateCommands, h, collectApplicationCommands_eq, hR]

theorem createCommands_of_ok {η ρ : Type} (R : Remote ρ) (scm : SCM η)
    (s : Session) (guildID : String) (w w1 : ρ) (created : List ApplicationCommand)
    (h : scm.botCommandIDs s.State.User.ID = none)
    (hR : R.ApplicationCommandBulkOverwrite w s.State.User.ID guildID
            (commandSpecs scm.Features) = (w1, Except.ok created)) :
    CreateCommands R scm s guildID w
      = { scm := { scm with
                    botCommandIDs := setBotCommandIDs scm.botCommandIDs s.State.User.ID
                      (created.map (fun cc => cc.ID)) },
          remote := w1, err := none,
          calls := [RemoteCall.bulkOverwrite s.State.User.ID guildID
                      (commandSpecs scm.Features)] } := by
  simp [CreateCommands, h, collectApplicationCommands_eq, hR, collectCreatedCommandIDs_eq]

theorem createCommands_calls_of_unregistered {η ρ : Type} (R : Remote ρ) (scm : SCM η)
    (s : Session) (guildID : String) (w : ρ)
    (h : scm.botCommandIDs s.State.User.ID = none) :
    (CreateCommands R scm s guildID w).calls
      = [RemoteCall.bulkOverwrite s.State.User.ID guildID (commandSpecs scm.Features)] := by
  rcases hR : R.ApplicationCommandBulkOverwrite w s.State.User.ID guildID
      (commandSpecs scm.Features) with ⟨w1, e | created⟩
  · rw [createCommands_of_error R scm s guildID w w1 e h hR]
  · rw [createCommands_of_ok R scm s guildID w w1 created h hR]

theorem createCommands_err_none_iff {η ρ : Type} (R : Remote ρ) (scm : SCM η)
    (s : Session) (guildID : String) (w : ρ) :
    (CreateCommands R scm s guildID w).err = none ↔
      scm.botCommandIDs s.State.User.ID = none ∧
      ∃ created, (R.ApplicationCommandBulkOverwrite w s.State.User.ID guildID
        (commandSpecs scm.Features)).2 = Except.ok created := by
  cases h : scm.botCommandIDs s.State.User.ID with
  | some ids => simp [createCommands_of_registered R scm s guildID w ids h]
  | none =>
    rcases hR : R.ApplicationCommandBulkOverwrite w s.State.User.ID guildID
        (commandSpecs scm.Features) with ⟨w1, e | created⟩
    · simp [createCommands_of_error R scm s guildID w w1 e h hR]
    · simp [createCommands_of_ok R scm s guildID w w1 created h hR]

/-- C2.  For an identity without a bookkeeping entry, `CreateCommands` makes exactly one
remote call: a bulk overwrite for the identity of the session and the given guild, with
the ApplicationCommand of every Command or Autocomplete Feature, in registry order (one
entry per such Feature, none for any other Feature).  When the platform answers that
call with the created records, `CreateCommands` returns nil and the bookkeeping entry
of the identity is the list of the ids of those records, in the order returned. -/
theorem createCommands_sends_command_specs_and_records_ids {η ρ : Type} (R : Remote ρ)
    (scm : SCM η) (s : Session) (guildID : String) (w : ρ)
    (h : scm.botCommandIDs s.State.User.ID = none) :
    (CreateCommands R scm s guildID w).calls
        = [RemoteCall.bulkOverwrite s.State.User.ID guildID (commandSpecs scm.Features)]
      ∧ (commandSpecs scm.Features).length
          = scm.Features.countP (fun f => decide (f.Type_ = InteractionTypeApplicationCommand
              ∨ f.Type_ = InteractionTypeCommandAutocomplete))
      ∧ ∀ (w1 : ρ) (created : List ApplicationCommand),
          R.ApplicationCommandBulkOverwrite w s.State.User.ID guildID
              (commandSpecs scm.Features) = (w1, Except.ok created) →
            (CreateCommands R scm s guildID w).err = none
            ∧ (CreateCommands R scm s guildID w).scm.botCommandIDs s.State.User.ID
                = some (created.map (fun cc => cc.ID))
            ∧ (CreateCommands R scm s guildID w).scm.Features = scm.Features := by
  refine ⟨createCommands_calls_of_unregistered R scm s guildID w h, ?_, ?_⟩
  · simp [commandSpecs, List.countP_eq_length_filter]
  · intro w1 created hR
    rw [createCommands_of_ok R scm s guildID w w1 created h hR]
    simp [setBotCommandIDs]

/-- Witness for C2: the sample registry (Command "a", a MessageComponent, Command "b")
on the sample platform: the specs of "a" and "b" are sent, and the ids "id-a", "id-b"
are recorded for "app". -/
theorem createCommands_sends_command_specs_and_records_ids_witness :
    sampleSCM.botCommandIDs sampleSession.State.User.ID = none
      ∧ (CreateCommands sampleRemote sampleSCM sampleSession "guild" 1).calls
          = [RemoteCall.bulkOverwrite "app" "guild"
              [some (sampleCommand "a"), some (sampleCommand "b")]]
      ∧ (CreateCommands sampleRemote sampleSCM sampleSession "guild" 1).err = none
      ∧ (CreateCommands sampleRemote sampleSCM sampleSession "guild" 1).scm.botCommandIDs "app"
          = some ["id-a", "id-b"] :=
  ⟨rfl,
    (createCommands_sends_command_specs_and_records_ids sampleRemote sampleSCM
      sampleSession "guild" 1 rfl).1,
    ((createCommands_sends_command_specs_and_records_ids sampleRemote sampleSCM
      sampleSession "guild" 1 rfl).2.2 2
        [{ ID := "id-a", Name := "a", Description := "" },
         { ID := "id-b", Name := "b", Description := "" }] rfl).1,
    ((createCommands_sends_command_specs_and_records_ids sampleRemote sampleSCM
      sampleSession "guild" 1 rfl).2.2 2
        [{ ID := "id-a", Name := "a", Description := "" },
         { ID := "id-b", Name := "b", Description := "" }] rfl).2.1⟩

/-- C3.  After a `CreateCommands` call that returned nil, a `CreateCommands` call for
the same identity on the resulting router (any guild, any remote state) returns the
already-registered error, issues no remote call, and leaves the router (registry and
bookkeeping) and the remote state as they were. -/
theorem createCommands_second_call_rejected {η ρ : Type} (R : Remote ρ) (scm : SCM η)
    (s : Session) (guildID : String) (w : ρ)
    (hfirst : (CreateCommands R scm s guildID w).err = none)
    (s2 : Session) (guildID2 : String) (w2 : ρ)
    (hid : s2.State.User.ID = s.State.User.ID) :
    (CreateCommands R (CreateCommands R scm s guildID w).scm s2 guildID2 w2).err
        = some errAlreadyRegistered
      ∧ (CreateCommands R (CreateCommands R scm s guildID w).scm s2 guildID2 w2).calls = []
      ∧ (CreateCommands R (CreateCommands R scm s guildID w).scm s2 guildID2 w2).scm
          = (CreateCommands R scm s guildID w).scm
      ∧ (CreateCommands R (CreateCommands R scm s guildID w).scm s2 guildID2 w2).remote
          = w2 := by
  obtain ⟨h, created, hc⟩ := (createCommands_err_none_iff R scm s guildID w).1 hfirst
  have hR : R.ApplicationCommandBulkOverwrite w s.State.User.ID guildID
      (commandSpecs scm.Features)
      = ((R.ApplicationCommandBulkOverwrite w s.State.User.ID guildID
          (commandSpecs scm.Features)).1, Except.ok created) := by
    rw [← hc]
  have hentry : (CreateCommands R scm s guildID w).scm.botCommandIDs s2.State.User.ID
      = some (created.map (fun cc => cc.ID)) := by
    rw [createCommands_of_ok R scm s guildID w _ created h hR, hid]
    simp [setBotCommandIDs]
  rw [createCommands_of_registered R _ s2 guildID2 w2 _ hentry]
  exact ⟨rfl, rfl, rfl, rfl⟩

/-- Witness for C3: the empty registry; the first call sends the empty list, the
platform returns no records, the recorded list is empty; the second call is rejected
all the same. -/
theorem createCommands_second_call_rejected_witness :
    (CreateCommands sampleRemote (NewSCM : SCM String) sampleSession "" 1).err = none
      ∧ (CreateCommands sampleRemote (NewSCM : SCM String) sampleSession "" 1).scm.botCommandIDs
          "app" = some []
      ∧ (CreateCommands sampleRemote
          (CreateCommands sampleRemote (NewSCM : SCM String) sampleSession "" 1).scm
          sampleSession "guild" 2).err = some errAlreadyRegistered
      ∧ (CreateCommands sampleRemote
          (CreateCommands sampleRemote (NewSCM : SCM String) sampleSession "" 1).scm
          sampleSession "guild" 2).calls = [] :=
  ⟨rfl, rfl,
    (createCommands_second_call_rejected sampleRemote (NewSCM : SCM String) sampleSession
      "" 1 rfl sampleSession "guild" 2 rfl).1,
    (createCommands_second_call_rejected sampleRemote (NewSCM : SCM String) sampleSession
      "" 1 rfl sampleSession "guild" 2 rfl).2.1⟩

/-- C4.  When the identity has no bookkeeping entry and the platform answers the bulk
overwrite with an error, `CreateCommands` returns that error, and the router is what it
was before the call; the identity still has no entry, so a following `CreateCommands`
call for it (any guild, any remote state) issues the bulk overwrite again and does not
return the already-registered error. -/
theorem createCommands_failure_keeps_state {η ρ : Type} (R : Remote ρ) (scm : SCM η)
    (s : Session) (guildID : String) (w w1 : ρ) (e : RemoteError)
    (h : scm.botCommandIDs s.State.User.ID = none)
    (hR : R.ApplicationCommandBulkOverwrite w s.State.User.ID guildID
            (commandSpecs scm.Features) = (w1, Except.error e)) :
    (CreateCommands R scm s guildID w).err = some (Error.remote e)
      ∧ (CreateCommands R scm s guildID w).scm = scm
      ∧ (CreateCommands R scm s guildID w).scm.botCommandIDs s.State.User.ID = none
      ∧ ∀ (guildID2 : String) (w2 : ρ),
          (CreateCommands R (CreateCommands R scm s guildID w).scm s guildID2 w2).calls
              = [RemoteCall.bulkOverwrite s.State.User.ID guildID2
                  (commandSpecs scm.Features)]
          ∧ (CreateCommands R (CreateCommands R scm s guildID w).scm s guildID2 w2).err
              ≠ some errAlreadyRegistered := by
  rw [createCommands_of_error R scm s guildID w w1 e h hR]
  refine ⟨rfl, rfl, h, ?_⟩
  intro guildID2 w2
  refine ⟨createCommands_calls_of_unregistered R scm s guildID2 w2 h, ?_⟩
  rcases hR2 : R.ApplicationCommandBulkOverwrite w2 s.State.User.ID guildID2
      (commandSpecs scm.Features) with ⟨w3, e2 | created⟩
  · rw [createCommands_of_error R scm s guildID2 w2 w3 e2 h hR2]
    simp [errAlreadyRegistered]
  · rw [createCommands_of_ok R scm s guildID2 w2 w3 created h hR2]
    simp

/-- Witness for C4: the sample platform refuses its first call; the retry is sent. -/
theorem createCommands_failure_keeps_state_witness :
    (CreateCommands sampleRemote sampleSCM sampleSession "guild" 0).err
        = some (Error.remote { text := "unavailable" })
      ∧ (CreateCommands sampleRemote sampleSCM sampleSession "guild" 0).scm = sampleSCM
      ∧ (CreateCommands sampleRemote
          (CreateCommands sampleRemote sampleSCM sampleSession "guild" 0).scm
          sampleSession "guild" 1).calls
          = [RemoteCall.bulkOverwrite "app" "guild"
              [some (sampleCommand "a"), some (sampleCommand "b")]] :=
  ⟨(createCommands_failure_keeps_state sampleRemote sampleSCM sampleSession "guild" 0 1
      { text := "unavailable" } rfl rfl).1,
    (createCommands_failure_keeps_state sampleRemote sampleSCM sampleSession "guild" 0 1
      { text := "unavailable" } rfl rfl).2.1,
    ((createCommands_failure_keeps_state sampleRemote sampleSCM sampleSession "guild" 0 1
      { text := "unavailable" } rfl rfl).2.2.2 "guild" 1).1⟩

/-! ## Deregistration -/

theorem deleteAnswer_cons_zero {ρ : Type} (R : Remote ρ) (appID guildID : String)
    (ccID : String) (rest : List String) (w : ρ) :
    deleteAnswer R appID guildID (ccID :: rest) w 0
      = (R.ApplicationCommandDelete w appID guildID ccID).2 := by
  simp [deleteAnswer, afterDeletes]

theorem deleteAnswer_cons_succ {ρ : Type} (R : Remote ρ) (appID guildID : String)
    (ccID : String) (rest : List String) (w : ρ) (k : Nat) :
    deleteAnswer R appID guildID (ccID :: rest) w (k + 1)
      = deleteAnswer R appID guildID rest
          (R.ApplicationCommandDelete w appID guildID ccID).1 k := by
  simp [deleteAnswer, afterDeletes]

theorem deleteLoop_all_succeed {ρ : Type} (R : Remote ρ) (appID guildID : String)
    (ids : List String) (w : ρ)
    (h : ∀ k, k < ids.length → deleteAnswer R appID guildID ids w k = none) :
    deleteLoop R appID guildID ids w
      = (afterDeletes R appID guildID ids w, none,
          ids.map (fun ccID => RemoteCall.delete appID guildID ccID)) := by
  induction ids generalizing w with
  | nil => rfl
  | cons ccID rest ih =>
    have h0 := h 0 (by simp)
    rw [deleteAnswer_cons_zero] at h0
    have hrest : ∀ k, k < rest.length →
        deleteAnswer R appID guildID rest
          (R.ApplicationCommandDelete w appID guildID ccID).1 k = none := by
      intro k hk
      have := h (k + 1) (by simpa using hk)
      rwa [deleteAnswer_cons_succ] at this
    have ih2 := ih (R.ApplicationCommandDelete w appID guildID ccID).1 hrest
    rcases hd : R.ApplicationCommandDelete w appID guildID ccID with ⟨w1, r⟩
    rw [hd] at h0 ih2
    simp only at h0 ih2
    subst h0
    simp [deleteLoop, afterDeletes, hd, ih2]

theorem deleteLoop_first_failure {ρ : Type} (R : Remote ρ) (appID guildID : String)
    (ids : List String) (w : ρ) (k : Nat) (e : RemoteError)
    (hk : k < ids.length)
    (hbefore : ∀ j, j < k → deleteAnswer R appID guildID ids w j = none)
    (hfail : deleteAnswer R appID guildID ids w k = some e) :
    deleteLoop R appID guildID ids w
      = (afterDeletes R appID guildID (ids.take (k + 1)) w, some (Error.remote e),
          (ids.take (k + 1)).map (fun ccID => RemoteCall.delete appID guildID ccID)) := by
  induction ids generalizing w k with
  | nil => simp at hk
  | cons ccID rest ih =>
    rcases hd : R.ApplicationCommandDelete w appID guildID ccID with ⟨w1, r⟩
    cases k with
    | zero =>
      rw [deleteAnswer_cons_zero, hd] at hfail
      simp only at hfail
      subst hfail
      simp [deleteLoop, afterDeletes, hd]
    | succ k =>
      have h0 := hbefore 0 (Nat.succ_pos k)
      rw [deleteAnswer_cons_zero, hd] at h0
      simp only at h0
      subst h0
      have hk2 : k < rest.length := by simpa using hk
      have hb2 : ∀ j, j < k → deleteAnswer R appID guildID rest w1 j = none := by
        intro j hj
        have := hbefore (j + 1) (Nat.succ_lt_succ hj)
        rwa [deleteAnswer_cons_succ, hd] at this
      have hf2 : deleteAnswer R appID guildID rest w1 k = some e := by
        rwa [deleteAnswer_cons_succ, hd] at hfail
      have ih2 := ih w1 k hk2 hb2 hf2
      simp [deleteLoop, afterDeletes, hd, ih2]

theorem deleteLoop_err_none {ρ : Type} (R : Remote ρ) (appID guildID : String)
    (ids : List String) (w : ρ)
    (h : (deleteLoop R appID guildID ids w).2.1 = none) :
    ∀ k, k < ids.length → deleteAnswer R appID guildID ids w k = none := by
  induction ids generalizing w with
  | nil => intro k hk; simp at hk
  | cons ccID rest ih =>
    rcases hd : R.ApplicationCommandDelete w appID guildID ccID with ⟨w1, r⟩
    cases r with
    | some e => simp [deleteLoop, hd] at h
    | none =>
      have h2 : (deleteLoop R appID guildID rest w1).2.1 = none := by
        simpa [deleteLoop, hd] using h
      intro k hk
      cases k with
      | zero => rw [deleteAnswer_cons_zero, hd]
      | succ k =>
        rw [deleteAnswer_cons_succ, hd]
        exact ih w1 h2 k (by simpa using hk)

/-- C5.  Let `ids` be the list recorded for the identity of the session.
`DeleteCommands` returns nil exactly when the delete of every recorded id succeeds (each
delete answered in the remote state the earlier deletes left).  In that case it issues
one delete call per recorded id, in recorded order, each with the identity and the
given guild, and nothing else.  If the delete of the `k`-th id is the first that fails,
with error `e`, the calls issued are the delete calls for the first `k + 1` recorded
ids, in order, and nothing for any later id, and the error returned is `e`. -/
theorem deleteCommands_in_order_until_first_failure {η ρ : Type} (R : Remote ρ)
    (scm : SCM η) (s : Session) (guildID : String) (w : ρ) :
    ((DeleteCommands R scm s guildID w).err = none ↔
        ∀ k, k < (recordedIDs scm s.State.User.ID).length →
          deleteAnswer R s.State.User.ID guildID (recordedIDs scm s.State.User.ID) w k = none)
      ∧ ((∀ k, k < (recordedIDs scm s.State.User.ID).length →
            deleteAnswer R s.State.User.ID guildID (recordedIDs scm s.State.User.ID) w k
              = none) →
          (DeleteCommands R scm s guildID w).calls
            = (recordedIDs scm s.State.User.ID).map
                (fun ccID => RemoteCall.delete s.State.User.ID guildID ccID))
      ∧ (∀ (k : Nat) (e : RemoteError),
          k < (recordedIDs scm s.State.User.ID).length →
          (∀ j, j < k →
            deleteAnswer R s.State.User.ID guildID (recordedIDs scm s.State.User.ID) w j
              = none) →
          deleteAnswer R s.State.User.ID guildID (recordedIDs scm s.State.User.ID) w k
            = some e →
          (DeleteCommands R scm s guildID w).err = some (Error.remote e)
          ∧ (DeleteCommands R scm s guildID w).calls
              = ((recordedIDs scm s.State.User.ID).take (k + 1)).map
                  (fun ccID => RemoteCall.delete s.State.User.ID guildID ccID)) := by
  refine ⟨⟨?_, ?_⟩, ?_, ?_⟩
  · intro h
    exact deleteLoop_err_none R _ guildID _ w h
  · intro h
    simp [DeleteCommands, deleteLoop_all_succeed R _ guildID _ w h]
  · intro h
    simp [DeleteCommands, deleteLoop_all_succeed R _ guildID _ w h]
  · intro k e hk hbefore hfail
    simp [DeleteCommands, deleteLoop_first_failure R _ guildID _ w k e hk hbefore hfail]

/-- Witness for C5: "id-a", "id-b", "id-c" are recorded and the platform refuses the
delete of "id-b": the deletes of "id-a" and "id-b" are issued, none for "id-c", and the
refusal is returned. -/
theorem deleteCommands_in_order_until_first_failure_witness :
    (DeleteCommands sampleRemote registeredSCM sampleSession "guild" 0).err
        = some (Error.remote { text := "unknown command" })
      ∧ (DeleteCommands sampleRemote registeredSCM sampleSession "guild" 0).calls
          = [RemoteCall.delete "app" "guild" "id-a", RemoteCall.delete "app" "guild" "id-b"] :=
  (deleteCommands_in_order_until_first_failure sampleRemote registeredSCM sampleSession
    "guild" 0).2.2 1 { text := "unknown command" } (by decide)
    (by intro j hj; interval_cases j; rfl) rfl

/-! ## C6: an event that matches nothing -/

theorem handleInteractionCreate_scm {η : Type} (scm : SCM η) (s : Session)
    (i : InteractionCreate) : (HandleInteractionCreate scm s i).scm = scm := by
  unfold HandleInteractionCreate
  rcases findRelevantFeature i scm.Features with _ | _ | _ <;> rfl

theorem handleInteractionCreate_calls {η : Type} (scm : SCM η) (s : Session)
    (i : InteractionCreate) : (HandleInteractionCreate scm s i).calls = [] := by
  unfold HandleInteractionCreate
  rcases findRelevantFeature i scm.Features with _ | _ | _ <;> rfl

/-- An event that matches nothing is dropped where the scan completes: when no Feature
matches the event and the scan can read what it compares at every Feature, no handler
is invoked, the call completes, and the router is unchanged. -/
theorem handleInteractionCreate_no_match {η : Type} (scm : SCM η) (s : Session)
    (i : InteractionCreate) (hno : ∀ g ∈ scm.Features, ¬ Matches g i)
    (hread : ∀ g ∈ scm.Features, Readable g i) :
    (HandleInteractionCreate scm s i).result = Run.done []
      ∧ (HandleInteractionCreate scm s i).calls = []
      ∧ (HandleInteractionCreate scm s i).scm = scm := by
  have h := findRelevantFeature_no_match i scm.Features hno hread
  simp [HandleInteractionCreate, h]

/-- An instance of the lemma above: the scenario registry and a Command event named
"pong". -/
theorem handleInteractionCreate_no_match_witness :
    (HandleInteractionCreate
        ({ Features := plainFeatures, botCommandIDs := fun _ => none } : SCM String)
        sampleSession (commandEvent "pong")).result = Run.done []
      ∧ (HandleInteractionCreate
        ({ Features := plainFeatures, botCommandIDs := fun _ => none } : SCM String)
        sampleSession (commandEvent "pong")).calls = []
      ∧ (HandleInteractionCreate
        ({ Features := plainFeatures, botCommandIDs := fun _ => none } : SCM String)
        sampleSession (commandEvent "pong")).scm
        = { Features := plainFeatures, botCommandIDs := fun _ => none } :=
  handleInteractionCreate_no_match
    { Features := plainFeatures, botCommandIDs := fun _ => none }
    sampleSession (commandEvent "pong") (by decide) (by decide)

/-- C6 at its failing input: the registry holds one ModalSubmit Feature (without an
ApplicationCommand, which only Command and Autocomplete Features need) and the event is
a ModalSubmit event, as the client library delivers it.  No Feature matches the event,
and the call does not complete: line 122 fails, where the scan asks the ModalSubmit
event for a command name and reads the ApplicationCommand the Feature does not have.
The same happens when the ModalSubmit Feature has an ApplicationCommand. -/
theorem handleInteractionCreate_unmatched_modal_fails :
    bareModalEvent.Deliverable
      ∧ (∀ g ∈ [modalFeature "M" none], ¬ Matches g bareModalEvent)
      ∧ (HandleInteractionCreate
          ({ Features := [modalFeature "M" none], botCommandIDs := fun _ => none } : SCM String)
          sampleSession bareModalEvent).result = Run.panicked
      ∧ (∀ g ∈ [modalFeature "M" (some (sampleCommand "x"))], ¬ Matches g bareModalEvent)
      ∧ (HandleInteractionCreate
          ({ Features := [modalFeature "M" (some (sampleCommand "x"))],
             botCommandIDs := fun _ => none } : SCM String)
          sampleSession bareModalEvent).result = Run.panicked := by
  refine ⟨by decide, by decide, rfl, by decide, rfl⟩

/-! ## C7: the registry is the concatenation of what was added -/

theorem foldl_addFeature {η : Type} (fs : List (Feature η)) (scm : SCM η) :
    fs.foldl AddFeature scm = { scm with Features := scm.Features ++ fs } := by
  induction fs generalizing scm with
  | nil => simp
  | cons f fs ih => simp [List.foldl_cons, ih, AddFeature, List.append_assoc]

theorem createCommands_features {η ρ : Type} (R : Remote ρ) (scm : SCM η) (s : Session)
    (guildID : String) (w : ρ) :
    (CreateCommands R scm s guildID w).scm.Features = scm.Features := by
  cases h : scm.botCommandIDs s.State.User.ID with
  | some ids => rw [createCommands_of_registered R scm s guildID w ids h]
  | none =>
    rcases hR : R.ApplicationCommandBulkOverwrite w s.State.User.ID guildID
        (commandSpecs scm.Features) with ⟨w1, e | created⟩
    · rw [createCommands_of_error R scm s guildID w w1 e h hR]
    · rw [createCommands_of_ok R scm s guildID w w1 created h hR]

theorem apply_features {η ρ : Type} (R : Remote ρ) (op : Op η) (scm : SCM η) (w : ρ) :
    (op.apply R scm w).scm.Features = scm.Features ++ op.added := by
  cases op with
  | addFeature feature => rfl
  | addFeatures features => rfl
  | createCommands s guildID => simp [Op.apply, Op.added, createCommands_features]
  | deleteCommands s guildID => simp [Op.apply, Op.added, DeleteCommands]
  | handleInteractionCreate s i =>
    simp [Op.apply, Op.added, handleInteractionCreate_scm]

theorem runOps_features {η ρ : Type} (R : Remote ρ) (ops : List (Op η)) (scm : SCM η)
    (w : ρ) :
    (runOps R ops scm w).1.Features = scm.Features ++ (ops.map Op.added).flatten := by
  induction ops generalizing scm w with
  | nil => simp [runOps]
  | cons op ops ih =>
    simp only [runOps, List.map_cons, List.flatten_cons]
    rw [ih, apply_features, List.append_assoc]

/-- C7.  `AddFeatures scm fs` is the router obtained by calling `AddFeature` on each
element of `fs` in order; its registry is the old registry followed by `fs` and its
bookkeeping is the old one.  After any sequence of calls on a new router the registry
is the concatenation, in call order, of the Features handed to `AddFeature` and
`AddFeatures`. -/
theorem addFeatures_eq_repeated_addFeature {η ρ : Type} (scm : SCM η)
    (fs : List (Feature η)) (R : Remote ρ) (w : ρ) (ops : List (Op η)) :
    AddFeatures scm fs = fs.foldl AddFeature scm
      ∧ (AddFeatures scm fs).Features = scm.Features ++ fs
      ∧ (AddFeatures scm fs).botCommandIDs = scm.botCommandIDs
      ∧ (runOps R ops NewSCM w).1.Features = (ops.map Op.added).flatten := by
  refine ⟨?_, rfl, rfl, ?_⟩
  · rw [foldl_addFeature]; rfl
  · rw [runOps_features]; simp [NewSCM]

/-! ## C8: the field that is not meaningful for a kind -/

theorem handleInteractionCreate_result_cons {η : Type} (f : Feature η)
    (fs : List (Feature η)) (bk : String → Option (List String)) (s : Session)
    (i : InteractionCreate) :
    (HandleInteractionCreate { Features := f :: fs, botCommandIDs := bk } s i).result
      = if f.Type_ = i.Type_ then
          if i.Type_ = InteractionTypeMessageComponent then
            match i.MessageComponentData with
            | none => Run.panicked
            | some d =>
              if f.CustomID = d.CustomID then
                Run.done [{ handler := f.Handler, session := s, event := i }]
              else (HandleInteractionCreate { Features := fs, botCommandIDs := bk } s i).result
          else
            match f.ApplicationCommand with
            | none => Run.panicked
            | some c =>
              match i.ApplicationCommandData with
              | none => Run.panicked
              | some d =>
                if c.Name = d.Name then
                  Run.done [{ handler := f.Handler, session := s, event := i }]
                else
                  (HandleInteractionCreate { Features := fs, botCommandIDs := bk } s i).result
        else (HandleInteractionCreate { Features := fs, botCommandIDs := bk } s i).result := by
  simp only [HandleInteractionCreate, findRelevantFeature]
  generalize findRelevantFeature i fs = r
  by_cases ht : f.Type_ = i.Type_
  · by_cases hmc : i.Type_ = InteractionTypeMessageComponent
    · simp only [ht, hmc, if_true]
      cases i.MessageComponentData with
      | none => rfl
      | some d =>
        by_cases hc : f.CustomID = d.CustomID
        · simp only [hc, if_true]
        · simp only [hc, if_false]
          rcases r with _ | _ | _ <;> rfl
    · simp only [ht, hmc, if_true, if_false]
      cases f.ApplicationCommand with
      | none => rfl
      | some c =>
        cases i.ApplicationCommandData with
        | none => rfl
        | some d =>
          by_cases hc : c.Name = d.Name
          · simp only [hc, if_true]
          · simp only [hc, if_false]
            rcases r with _ | _ | _ <;> rfl
  · simp only [ht, if_false]
    rcases r with _ | _ | _ <;> rfl

theorem handleInteractionCreate_result_congr {η : Type} (fs gs : List (Feature η))
    (bk : String → Option (List String)) (s : Session) (i : InteractionCreate)
    (hdel : i.Deliverable) (h : List.Forall₂ SameUpToUnused fs gs) :
    (HandleInteractionCreate { Features := fs, botCommandIDs := bk } s i).result
      = (HandleInteractionCreate { Features := gs, botCommandIDs := bk } s i).result := by
  induction h with
  | nil => rfl
  | @cons f g fs gs hfg _ ih =>
    obtain ⟨ht, hh, hc, ha⟩ := hfg
    rw [handleInteractionCreate_result_cons, handleInteractionCreate_result_cons, ← ih,
      ← ht, ← hh]
    by_cases hte : f.Type_ = i.Type_
    · by_cases hmc : i.Type_ = InteractionTypeMessageComponent
      · rw [← hc (hte.trans hmc)]
        simp only [hte, hmc, if_true]
      · by_cases hca : f.Type_ = InteractionTypeApplicationCommand
            ∨ f.Type_ = InteractionTypeCommandAutocomplete
        · rw [← ha hca]
          simp only [hte, hmc, if_true, if_false]
        · have hnone : i.ApplicationCommandData = none := by
            by_contra hsome
            exact hca (hte ▸ hdel.2 hsome)
          simp only [hte, hmc, if_true, if_false, hnone]
          cases f.ApplicationCommand <;> cases g.ApplicationCommand <;> rfl
    · simp only [hte, if_false]

theorem commandSpecs_cons {η : Type} (f : Feature η) (fs : List (Feature η)) :
    commandSpecs (f :: fs)
      = if f.Type_ = InteractionTypeApplicationCommand
            ∨ f.Type_ = InteractionTypeCommandAutocomplete then
          f.ApplicationCommand :: commandSpecs fs
        else commandSpecs fs := by
  by_cases h : f.Type_ = InteractionTypeApplicationCommand
      ∨ f.Type_ = InteractionTypeCommandAutocomplete
  · simp [commandSpecs, List.filter_cons, h]
  · simp [commandSpecs, List.filter_cons, h]

theorem commandSpecs_congr {η : Type} (fs gs : List (Feature η))
    (h : List.Forall₂ SameUpToUnused fs gs) : commandSpecs fs = commandSpecs gs := by
  induction h with
  | nil => rfl
  | @cons f g fs gs hfg _ ih =>
    obtain ⟨ht, _, _, ha⟩ := hfg
    rw [commandSpecs_cons, commandSpecs_cons, ih, ← ht]
    by_cases hk : f.Type_ = InteractionTypeApplicationCommand
        ∨ f.Type_ = InteractionTypeCommandAutocomplete
    · rw [if_pos hk, if_pos hk, ha hk]
    · rw [if_neg hk, if_neg hk]

theorem createCommands_congr {η ρ : Type} (R : Remote ρ) (fs gs : List (Feature η))
    (bk : String → Option (List String)) (s : Session) (guildID : String) (w : ρ)
    (h : commandSpecs fs = commandSpecs gs) :
    (CreateCommands R { Features := fs, botCommandIDs := bk } s guildID w).calls
        = (CreateCommands R { Features := gs, botCommandIDs := bk } s guildID w).calls
      ∧ (CreateCommands R { Features := fs, botCommandIDs := bk } s guildID w).err
        = (CreateCommands R { Features := gs, botCommandIDs := bk } s guildID w).err
      ∧ (CreateCommands R { Features := fs, botCommandIDs := bk } s guildID w).scm.botCommandIDs
        = (CreateCommands R { Features := gs, botCommandIDs := bk } s guildID w).scm.botCommandIDs := by
  simp only [CreateCommands, collectApplicationCommands_eq, List.nil_append, h]
  cases bk s.State.User.ID with
  | some ids => exact ⟨rfl, rfl, rfl⟩
  | none =>
    rcases R.ApplicationCommandBulkOverwrite w s.State.User.ID guildID
        (commandSpecs gs) with ⟨w1, e | created⟩
    · exact ⟨rfl, rfl, rfl⟩
    · exact ⟨rfl, rfl, rfl⟩

/-- C8.  Let two registries agree Feature by Feature on kind and handler, on the
`CustomID` of MessageComponent Features and on the ApplicationCommand of Command and
Autocomplete Features; they may differ in the `CustomID` of every Feature that is not a
MessageComponent Feature and in the ApplicationCommand (present, absent, another name)
of every Feature that is not a Command or Autocomplete Feature.  Then on every event
the client library delivers `HandleInteractionCreate` ends the same way on both, with
the same handler invocation, and `CreateCommands` sends the same list, returns the same
error and records the same ids on both. -/
theorem unused_field_is_ignored {η ρ : Type} (fs gs : List (Feature η))
    (bk : String → Option (List String)) (h : List.Forall₂ SameUpToUnused fs gs) :
    (∀ (s : Session) (i : InteractionCreate), i.Deliverable →
        (HandleInteractionCreate { Features := fs, botCommandIDs := bk } s i).result
          = (HandleInteractionCreate { Features := gs, botCommandIDs := bk } s i).result)
      ∧ commandSpecs fs = commandSpecs gs
      ∧ ∀ (R : Remote ρ) (s : Session) (guildID : String) (w : ρ),
          (CreateCommands R { Features := fs, botCommandIDs := bk } s guildID w).calls
            = (CreateCommands R { Features := gs, botCommandIDs := bk } s guildID w).calls
          ∧ (CreateCommands R { Features := fs, botCommandIDs := bk } s guildID w).err
            = (CreateCommands R { Features := gs, botCommandIDs := bk } s guildID w).err
          ∧ (CreateCommands R { Features := fs, botCommandIDs := bk } s guildID w
              ).scm.botCommandIDs
            = (CreateCommands R { Features := gs, botCommandIDs := bk } s guildID w
              ).scm.botCommandIDs := by
  have hc := commandSpecs_congr fs gs h
  exact ⟨fun s i hdel => handleInteractionCreate_result_congr fs gs bk s i hdel h, hc,
    fun R s guildID w => createCommands_congr R fs gs bk s guildID w hc⟩

/-- Witness for C8.  The scenario registry and the same registry with the other field of
each Feature filled in behave alike on the MessageComponent event "btn1" and publish the
same list; a ModalSubmit Feature with an ApplicationCommand and the same Feature without
one behave alike on a ModalSubmit event. -/
theorem unused_field_is_ignored_witness :
    List.Forall₂ SameUpToUnused plainFeatures noisyFeatures
      ∧ (HandleInteractionCreate
            ({ Features := plainFeatures, botCommandIDs := fun _ => none } : SCM String)
            sampleSession (componentEvent "btn1")).result
          = (HandleInteractionCreate
            ({ Features := noisyFeatures, botCommandIDs := fun _ => none } : SCM String)
            sampleSession (componentEvent "btn1")).result
      ∧ commandSpecs plainFeatures = commandSpecs noisyFeatures
      ∧ (HandleInteractionCreate
            ({ Features := [modalFeature "M" (some (sampleCommand "x"))],
               botCommandIDs := fun _ => none } : SCM String)
            sampleSession bareModalEvent).result
          = (HandleInteractionCreate
            ({ Features := [modalFeature "M" none],
               botCommandIDs := fun _ => none } : SCM String)
            sampleSession bareModalEvent).result :=
  ⟨List.Forall₂.cons (by decide) (List.Forall₂.cons (by decide) List.Forall₂.nil),
    (@unused_field_is_ignored String Nat plainFeatures noisyFeatures (fun _ => none)
      (List.Forall₂.cons (by decide) (List.Forall₂.cons (by decide) List.Forall₂.nil))).1
      sampleSession (componentEvent "btn1") (by decide),
    (@unused_field_is_ignored String Nat plainFeatures noisyFeatures (fun _ => none)
      (List.Forall₂.cons (by decide) (List.Forall₂.cons (by decide) List.Forall₂.nil))).2.1,
    (@unused_field_is_ignored String Nat [modalFeature "M" (some (sampleCommand "x"))]
      [modalFeature "M" none] (fun _ => none)
      (List.Forall₂.cons (by decide) List.Forall₂.nil)).1
      sampleSession bareModalEvent (by decide)⟩

/-! ## C10: the scenario -/

/-- C10.  In the registry [A, B], where A is a Command Feature whose command is named
"ping" and B is a MessageComponent Feature with `CustomID` "btn1": a Command event
named "ping" invokes the handler of A and nothing else; a MessageComponent event with
component identifier "btn1" invokes the handler of B and nothing else; a Command event
named "pong" invokes no handler. -/
theorem ping_button_scenario {η : Type} (A B : Feature η) (cmd : ApplicationCommand)
    (bk : String → Option (List String)) (s : Session)
    (hA : A.Type_ = InteractionTypeApplicationCommand)
    (hcmd : A.ApplicationCommand = some cmd) (hname : cmd.Name = "ping")
    (hB : B.Type_ = InteractionTypeMessageComponent) (hid : B.CustomID = "btn1") :
    (∀ (i : InteractionCreate) (d : ApplicationCommandInteractionData),
        i.Type_ = InteractionTypeApplicationCommand → i.ApplicationCommandData = some d →
        d.Name = "ping" →
        (HandleInteractionCreate { Features := [A, B], botCommandIDs := bk } s i).result
          = Run.done [{ handler := A.Handler, session := s, event := i }])
      ∧ (∀ (i : InteractionCreate) (d : MessageComponentInteractionData),
        i.Type_ = InteractionTypeMessageComponent → i.MessageComponentData = some d →
        d.CustomID = "btn1" →
        (HandleInteractionCreate { Features := [A, B], botCommandIDs := bk } s i).result
          = Run.done [{ handler := B.Handler, session := s, event := i }])
      ∧ (∀ (i : InteractionCreate) (d : ApplicationCommandInteractionData),
        i.Type_ = InteractionTypeApplicationCommand → i.ApplicationCommandData = some d →
        d.Name = "pong" →
        (HandleInteractionCreate { Features := [A, B], botCommandIDs := bk } s i).result
          = Run.done []) := by
  refine ⟨?_, ?_, ?_⟩
  · intro i d ht hd hn
    simp [HandleInteractionCreate, findRelevantFeature, hA, hcmd, hname, ht, hd, hn]
  · intro i d ht hd hn
    simp [HandleInteractionCreate, findRelevantFeature, hA, hB, hid, ht, hd, hn]
  · intro i d ht hd hn
    simp [HandleInteractionCreate, findRelevantFeature, hA, hB, hcmd, hname, ht, hd, hn]

/-- Witness for C10: the scenario with the handlers "A" and "B". -/
theorem ping_button_scenario_witness :
    (HandleInteractionCreate
        ({ Features := plainFeatures, botCommandIDs := fun _ => none } : SCM String)
        sampleSession (commandEvent "ping")).result
        = Run.done [{ handler := "A", session := sampleSession, event := commandEvent "ping" }]
      ∧ (HandleInteractionCreate
        ({ Features := plainFeatures, botCommandIDs := fun _ => none } : SCM String)
        sampleSession (componentEvent "btn1")).result
        = Run.done [{ handler := "B", session := sampleSession,
                      event := componentEvent "btn1" }]
      ∧ (HandleInteractionCreate
        ({ Features := plainFeatures, botCommandIDs := fun _ => none } : SCM String)
        sampleSession (commandEvent "pong")).result = Run.done [] :=
  ⟨(ping_button_scenario (commandFeature "A" "ping") (componentFeature "B" "btn1")
      (sampleCommand "ping") (fun _ => none) sampleSession rfl rfl rfl rfl rfl).1
      (commandEvent "ping") { ID := "1", Name := "ping" } rfl rfl rfl,
    (ping_button_scenario (commandFeature "A" "ping") (componentFeature "B" "btn1")
      (sampleCommand "ping") (fun _ => none) sampleSession rfl rfl rfl rfl rfl).2.1
      (componentEvent "btn1") { CustomID := "btn1" } rfl rfl rfl,
    (ping_button_scenario (commandFeature "A" "ping") (componentFeature "B" "btn1")
      (sampleCommand "ping") (fun _ => none) sampleSession rfl rfl rfl rfl rfl).2.2
      (commandEvent "pong") { ID := "1", Name := "pong" } rfl rfl rfl⟩

/-! ## C9: registration happens at most once per identity -/

theorem createCommands_keeps_entry {η ρ : Type} (R : Remote ρ) (scm : SCM η)
    (s : Session) (guildID : String) (w : ρ) (appID : String) (ids : List String)
    (h : scm.botCommandIDs appID = some ids) :
    (CreateCommands R scm s guildID w).scm.botCommandIDs appID = some ids := by
  cases hs : scm.botCommandIDs s.State.User.ID with
  | some ids2 => rw [createCommands_of_registered R scm s guildID w ids2 hs]; exact h
  | none =>
    have hne : appID ≠ s.State.User.ID := by
      intro he
      rw [he, hs] at h
      exact Option.noConfusion h
    rcases hR : R.ApplicationCommandBulkOverwrite w s.State.User.ID guildID
        (commandSpecs scm.Features) with ⟨w1, e | created⟩
    · rw [createCommands_of_error R scm s guildID w w1 e hs hR]; exact h
    · rw [createCommands_of_ok R scm s guildID w w1 created hs hR]
      simp [setBotCommandIDs, hne, h]

theorem createCommands_entry_of_success {η ρ : Type} (R : Remote ρ) (scm : SCM η)
    (s : Session) (guildID : String) (w : ρ)
    (h : (CreateCommands R scm s guildID w).err = none) :
    ∃ ids, (CreateCommands R scm s guildID w).scm.botCommandIDs s.State.User.ID
      = some ids := by
  obtain ⟨hn, created, hc⟩ := (createCommands_err_none_iff R scm s guildID w).1 h
  have hR : R.ApplicationCommandBulkOverwrite w s.State.User.ID guildID
      (commandSpecs scm.Features)
      = ((R.ApplicationCommandBulkOverwrite w s.State.User.ID guildID
          (commandSpecs scm.Features)).1, Except.ok created) := by
    rw [← hc]
  refine ⟨created.map (fun cc => cc.ID), ?_⟩
  rw [createCommands_of_ok R scm s guildID w _ created hn hR]
  simp [setBotCommandIDs]

theorem apply_keeps_entry {η ρ : Type} (R : Remote ρ) (op : Op η) (scm : SCM η) (w : ρ)
    (appID : String) (ids : List String) (h : scm.botCommandIDs appID = some ids) :
    (op.apply R scm w).scm.botCommandIDs appID = some ids := by
  cases op with
  | addFeature feature => exact h
  | addFeatures features => exact h
  | createCommands s guildID => exact createCommands_keeps_entry R scm s guildID w appID ids h
  | deleteCommands s guildID => exact h
  | handleInteractionCreate s i =>
    simp only [Op.apply, handleInteractionCreate_scm]
    exact h

theorem runOps_append {η ρ : Type} (R : Remote ρ) (ops1 ops2 : List (Op η)) (scm : SCM η)
    (w : ρ) :
    (runOps R (ops1 ++ ops2) scm w).1
      = (runOps R ops2 (runOps R ops1 scm w).1 (runOps R ops1 scm w).2.1).1 := by
  induction ops1 generalizing scm w with
  | nil => rfl
  | cons op ops ih =>
    rw [List.cons_append]
    simp only [runOps]
    exact ih _ _

theorem runOps_registered {η ρ : Type} (R : Remote ρ) (ops : List (Op η)) (scm : SCM η)
    (w : ρ) (appID : String) (ids : List String)
    (h : scm.botCommandIDs appID = some ids) :
    (runOps R ops scm w).1.botCommandIDs appID = some ids
      ∧ successfulCreates appID (runOps R ops scm w).2.2 = 0
      ∧ ∀ (s : Session) (guildID : String) (r : Option Error),
          (Op.createCommands s guildID, r) ∈ (runOps R ops scm w).2.2 →
          s.State.User.ID = appID → r = some errAlreadyRegistered := by
  induction ops generalizing scm w with
  | nil => exact ⟨h, rfl, fun s guildID r hmem => by simp [runOps] at hmem⟩
  | cons op ops ih =>
    obtain ⟨h1, h2, h3⟩ := ih (op.apply R scm w).scm (op.apply R scm w).remote
      (apply_keeps_entry R op scm w appID ids h)
    refine ⟨h1, ?_, ?_⟩
    · cases op with
      | createCommands s guildID =>
        by_cases hs : s.State.User.ID = appID
        · have hreg := createCommands_of_registered R scm s guildID w ids (hs ▸ h)
          simp only [runOps, Op.apply, hreg, successfulCreates]
          simpa [Op.apply, hreg] using h2
        · cases he : (CreateCommands R scm s guildID w).err with
          | none =>
            simp only [runOps, Op.apply, he, successfulCreates, hs, if_false, Nat.zero_add]
            exact h2
          | some e =>
            simp only [runOps, Op.apply, he, successfulCreates]
            exact h2
      | addFeature feature => simp only [runOps, successfulCreates]; exact h2
      | addFeatures features => simp only [runOps, successfulCreates]; exact h2
      | deleteCommands s guildID => simp only [runOps, successfulCreates]; exact h2
      | handleInteractionCreate s i => simp only [runOps, successfulCreates]; exact h2
    · intro s guildID r hmem hs
      simp only [runOps, List.mem_cons] at hmem
      rcases hmem with heq | hmem
      · have hop : op = Op.createCommands s guildID := (Prod.mk.inj heq).1.symm
        have hr : r = (op.apply R scm w).err := (Prod.mk.inj heq).2
        subst hop
        rw [hr]
        simp only [Op.apply]
        rw [createCommands_of_registered R scm s guildID w ids (hs ▸ h)]
      · exact h3 s guildID r hmem hs

theorem successfulCreates_le_one {η ρ : Type} (R : Remote ρ) (ops : List (Op η))
    (scm : SCM η) (w : ρ) (appID : String) :
    successfulCreates appID (runOps R ops scm w).2.2 ≤ 1 := by
  induction ops generalizing scm w with
  | nil => simp [runOps, successfulCreates]
  | cons op ops ih =>
    have ih2 := ih (op.apply R scm w).scm (op.apply R scm w).remote
    cases op with
    | createCommands s guildID =>
      cases he : (CreateCommands R scm s guildID w).err with
      | none =>
        by_cases hs : s.State.User.ID = appID
        · obtain ⟨ids, hids⟩ := createCommands_entry_of_success R scm s guildID w he
          have h0 := (runOps_registered R ops (CreateCommands R scm s guildID w).scm
            (CreateCommands R scm s guildID w).remote appID ids (hs ▸ hids)).2.1
          simp only [runOps, Op.apply, he, successfulCreates, hs, if_true, h0]
          exact Nat.le_refl 1
        · simp only [runOps, Op.apply, he, successfulCreates, hs, if_false, Nat.zero_add]
          exact ih2
      | some e =>
        simp only [runOps, Op.apply, he, successfulCreates]
        exact ih2
    | addFeature feature => simp only [runOps, successfulCreates]; exact ih2
    | addFeatures features => simp only [runOps, successfulCreates]; exact ih2
    | deleteCommands s guildID => simp only [runOps, successfulCreates]; exact ih2
    | handleInteractionCreate s i => simp only [runOps, successfulCreates]; exact ih2

/-- C9.  Take any router `scm`, remote state `w` and identity `appID`.  (1) In every
sequence of calls (of `AddFeature`, `AddFeatures`, `CreateCommands`, `DeleteCommands`,
`HandleInteractionCreate`) at most one `CreateCommands` call for `appID` returns nil.
(2) Once the bookkeeping holds a list for `appID`, after a part `ops1` of a sequence,
it holds that same list after every continuation `ops2`.  (3) From then on every
`CreateCommands` call for `appID` in the continuation returns the already-registered
error, whatever calls (a `DeleteCommands` that succeeded among them) came before it. -/
theorem registration_at_most_once {η ρ : Type} (R : Remote ρ) (scm : SCM η) (w : ρ)
    (appID : String) :
    (∀ ops : List (Op η), successfulCreates appID (runOps R ops scm w).2.2 ≤ 1)
      ∧ (∀ (ops1 ops2 : List (Op η)) (ids : List String),
          (runOps R ops1 scm w).1.botCommandIDs appID = some ids →
          (runOps R (ops1 ++ ops2) scm w).1.botCommandIDs appID = some ids)
      ∧ (∀ (ops1 ops2 : List (Op η)) (ids : List String),
          (runOps R ops1 scm w).1.botCommandIDs appID = some ids →
          ∀ (s : Session) (guildID : String) (r : Option Error),
            (Op.createCommands s guildID, r)
                ∈ (runOps R ops2 (runOps R ops1 scm w).1 (runOps R ops1 scm w).2.1).2.2 →
            s.State.User.ID = appID → r = some errAlreadyRegistered) := by
  refine ⟨fun ops => successfulCreates_le_one R ops scm w appID, ?_, ?_⟩
  · intro ops1 ops2 ids h
    rw [runOps_append]
    exact (runOps_registered R ops2 _ _ appID ids h).1
  · intro ops1 ops2 ids h
    exact (runOps_registered R ops2 _ _ appID ids h).2.2

/-- Witness for C9: on a new router, add the Command Feature "a", register, delete (the
delete of "id-a" succeeds), register again: the second registration is rejected and the
recorded list is still ["id-a"]. -/
theorem registration_at_most_once_witness :
    successfulCreates "app"
        (runOps sampleRemote
          [Op.addFeature (commandFeature "A" "a"), Op.createCommands sampleSession "g",
           Op.deleteCommands sampleSession "g", Op.createCommands sampleSession "g"]
          (NewSCM : SCM String) 1).2.2 ≤ 1
      ∧ (runOps sampleRemote
          ([Op.addFeature (commandFeature "A" "a"), Op.createCommands sampleSession "g"]
            ++ [Op.deleteCommands sampleSession "g", Op.createCommands sampleSession "g"])
          (NewSCM : SCM String) 1).1.botCommandIDs "app" = some ["id-a"]
      ∧ (runOps sampleRemote
          [Op.addFeature (commandFeature "A" "a"), Op.createCommands sampleSession "g",
           Op.deleteCommands sampleSession "g", Op.createCommands sampleSession "g"]
          (NewSCM : SCM String) 1).2.2.map Prod.snd
          = [none, none, none, some errAlreadyRegistered] :=
  ⟨(registration_at_most_once sampleRemote (NewSCM : SCM String) 1 "app").1
      [Op.addFeature (commandFeature "A" "a"), Op.createCommands sampleSession "g",
       Op.deleteCommands sampleSession "g", Op.createCommands sampleSession "g"],
    (registration_at_most_once sampleRemote (NewSCM : SCM String) 1 "app").2.1
      [Op.addFeature (commandFeature "A" "a"), Op.createCommands sampleSession "g"]
      [Op.deleteCommands sampleSession "g", Op.createCommands sampleSession "g"]
      ["id-a"] rfl,
    rfl⟩

/-! ## C11: deregistration keeps the bookkeeping -/

theorem deleteLoop_calls_head {ρ : Type} (R : Remote ρ) (appID guildID : String)
    (ids : List String) (w : ρ) :
    (deleteLoop R appID guildID ids w).2.2.head?
      = ids.head?.map (fun ccID => RemoteCall.delete appID guildID ccID) := by
  cases ids with
  | nil => rfl
  | cons ccID rest =>
    rcases hd : R.ApplicationCommandDelete w appID guildID ccID with ⟨w1, r⟩
    cases r <;> simp [deleteLoop, hd]

theorem deleteLoop_calls_take {ρ : Type} (R : Remote ρ) (appID guildID : String)
    (ids : List String) (w : ρ) :
    ∃ n, n ≤ ids.length ∧ (deleteLoop R appID guildID ids w).2.2
      = (ids.take n).map (fun ccID => RemoteCall.delete appID guildID ccID) := by
  induction ids generalizing w with
  | nil => exact ⟨0, Nat.le_refl 0, rfl⟩
  | cons ccID rest ih =>
    rcases hd : R.ApplicationCommandDelete w appID guildID ccID with ⟨w1, r⟩
    cases r with
    | some e => exact ⟨1, by simp, by simp [deleteLoop, hd]⟩
    | none =>
      obtain ⟨n, hn, hcalls⟩ := ih w1
      exact ⟨n + 1, by simpa using hn, by simp [deleteLoop, hd, hcalls]⟩

/-- C11.  `DeleteCommands` returns the router it was given, registry and bookkeeping,
whatever the delete calls answer.  So a `DeleteCommands` call for the same identity on
the router it leaves (any guild, any remote state) runs over the list that was recorded
originally: its first delete call is for the first recorded id, its calls are the
delete calls for the first `n` recorded ids for some `n`, and when every delete
succeeds this time they are the delete calls for the whole recorded list, ids deleted
before included. -/
theorem deleteCommands_keeps_state_and_restarts {η ρ : Type} (R : Remote ρ) (scm : SCM η)
    (s : Session) (guildID : String) (w : ρ) :
    (DeleteCommands R scm s guildID w).scm = scm
      ∧ ∀ (guildID2 : String) (w2 : ρ),
          recordedIDs (DeleteCommands R scm s guildID w).scm s.State.User.ID
              = recordedIDs scm s.State.User.ID
          ∧ (DeleteCommands R (DeleteCommands R scm s guildID w).scm s guildID2 w2).calls.head?
              = (recordedIDs scm s.State.User.ID).head?.map
                  (fun ccID => RemoteCall.delete s.State.User.ID guildID2 ccID)
          ∧ (∃ n, n ≤ (recordedIDs scm s.State.User.ID).length
              ∧ (DeleteCommands R (DeleteCommands R scm s guildID w).scm s guildID2 w2).calls
                = ((recordedIDs scm s.State.User.ID).take n).map
                    (fun ccID => RemoteCall.delete s.State.User.ID guildID2 ccID))
          ∧ ((∀ k, k < (recordedIDs scm s.State.User.ID).length →
                deleteAnswer R s.State.User.ID guildID2 (recordedIDs scm s.State.User.ID)
                  w2 k = none) →
              (DeleteCommands R (DeleteCommands R scm s guildID w).scm s guildID2 w2).calls
                = (recordedIDs scm s.State.User.ID).map
                    (fun ccID => RemoteCall.delete s.State.User.ID guildID2 ccID)) := by
  refine ⟨rfl, fun guildID2 w2 => ⟨rfl, ?_, ?_, ?_⟩⟩
  · exact deleteLoop_calls_head R _ guildID2 _ w2
  · exact deleteLoop_calls_take R _ guildID2 _ w2
  · intro h
    simp [DeleteCommands, deleteLoop_all_succeed R _ guildID2 _ w2 h]

/-- Witness for C11: "id-a", "id-b", "id-c" are recorded and the platform refuses the
delete of "id-b".  The first call deletes "id-a" and stops at "id-b"; the bookkeeping
still holds all three ids, and the second call deletes "id-a" again before it stops at
"id-b" again. -/
theorem deleteCommands_keeps_state_and_restarts_witness :
    (DeleteCommands sampleRemote registeredSCM sampleSession "guild" 0).calls
        = [RemoteCall.delete "app" "guild" "id-a", RemoteCall.delete "app" "guild" "id-b"]
      ∧ (DeleteCommands sampleRemote registeredSCM sampleSession "guild" 0).scm
          = registeredSCM
      ∧ recordedIDs (DeleteCommands sampleRemote registeredSCM sampleSession "guild" 0).scm
          "app" = ["id-a", "id-b", "id-c"]
      ∧ (DeleteCommands sampleRemote
          (DeleteCommands sampleRemote registeredSCM sampleSession "guild" 0).scm
          sampleSession "guild" 2).calls.head? = some (RemoteCall.delete "app" "guild" "id-a")
      ∧ (DeleteCommands sampleRemote
          (DeleteCommands sampleRemote registeredSCM sampleSession "guild" 0).scm
          sampleSession "guild" 2).calls
          = [RemoteCall.delete "app" "guild" "id-a", RemoteCall.delete "app" "guild" "id-b"] :=
  ⟨rfl,
    (deleteCommands_keeps_state_and_restarts sampleRemote registeredSCM sampleSession
      "guild" 0).1,
    ((deleteCommands_keeps_state_and_restarts sampleRemote registeredSCM sampleSession
      "guild" 0).2 "guild" 2).1,
    ((deleteCommands_keeps_state_and_restarts sampleRemote registeredSCM sampleSession
      "guild" 0).2 "guild" 2).2.1,
    rfl⟩

/-! ## C12: does the scan always complete? -/

theorem findRelevantFeature_completes {η : Type} (i : InteractionCreate)
    (fs : List (Feature η)) (hread : ∀ g ∈ fs, Readable g i) :
    findRelevantFeature i fs ≠ Run.panicked := by
  induction fs with
  | nil => simp [findRelevantFeature]
  | cons g gs ih =>
    by_cases hm : Matches g i
    · rw [findRelevantFeature_cons_of_matches i g gs hm]
      simp
    · rw [findRelevantFeature_cons_of_not_matches i g gs hm
        (hread g (List.mem_cons_self g gs))]
      exact ih (fun x hx => hread x (List.mem_cons_of_mem g hx))

/-- The part of C12 that holds: on a registry of well-formed Features, an event of kind
Command, Autocomplete or MessageComponent that carries the discriminator of its kind is
dispatched without a failure. -/
theorem handleInteractionCreate_completes_on_command_and_component {η : Type}
    (scm : SCM η) (s : Session) (i : InteractionCreate)
    (hwf : ∀ f ∈ scm.Features, f.WellFormed)
    (hkind : i.Type_ = InteractionTypeApplicationCommand
      ∨ i.Type_ = InteractionTypeCommandAutocomplete
      ∨ i.Type_ = InteractionTypeMessageComponent)
    (hdata : i.discriminator ≠ none) :
    (HandleInteractionCreate scm s i).result ≠ Run.panicked := by
  have hread : ∀ g ∈ scm.Features, Readable g i := by
    intro g hg ht
    refine ⟨?_, hdata⟩
    unfold Feature.discriminator
    by_cases hmc : g.Type_ = InteractionTypeMessageComponent
    · simp [hmc]
    · have hca : g.Type_ = InteractionTypeApplicationCommand
          ∨ g.Type_ = InteractionTypeCommandAutocomplete := by
        rcases hkind with h | h | h
        · exact Or.inl (ht.trans h)
        · exact Or.inr (ht.trans h)
        · exact absurd (ht.trans h) hmc
      have hne := hwf g hg hca
      cases hc : g.ApplicationCommand with
      | none => exact absurd hc hne
      | some c => simp [hmc]
  have hfind := findRelevantFeature_completes i scm.Features hread
  unfold HandleInteractionCreate
  rcases hr : findRelevantFeature i scm.Features with _ | _ | _
  · exact absurd hr hfind
  · simp
  · simp

/-- C12 at its failing inputs.  The event is a ModalSubmit event, one of the four kinds,
as the client library delivers it.  (1) The registry holds one ModalSubmit Feature
without an ApplicationCommand, which is well-formed: line 122 fails, where the scan
reads the name of the absent ApplicationCommand and asks the ModalSubmit event for a
command name.  (2) The registry holds one ModalSubmit Feature with an
ApplicationCommand: line 122 fails all the same, because the scan asks the ModalSubmit
event for a command name, which an event of this kind does not carry. -/
theorem handleInteractionCreate_fails_on_modal_submit :
    (bareModalEvent.KnownKind ∧ bareModalEvent.Deliverable)
      ∧ ((∀ f ∈ [modalFeature "M" none], f.WellFormed)
        ∧ (HandleInteractionCreate
            ({ Features := [modalFeature "M" none], botCommandIDs := fun _ => none }
              : SCM String)
            sampleSession bareModalEvent).result = Run.panicked)
      ∧ ((∀ f ∈ [modalFeature "M" (some (sampleCommand "x"))], f.WellFormed)
        ∧ (HandleInteractionCreate
            ({ Features := [modalFeature "M" (some (sampleCommand "x"))],
               botCommandIDs := fun _ => none } : SCM String)
            sampleSession bareModalEvent).result = Run.panicked) := by
  refine ⟨⟨by decide, by decide⟩, ⟨by decide, rfl⟩, ⟨by decide, rfl⟩⟩

/-! ## C13: the dispatch is pure -/

theorem handleInteractionCreate_result_of_features {η : Type} (scm1 scm2 : SCM η)
    (s : Session) (i : InteractionCreate) (h : scm1.Features = scm2.Features) :
    (HandleInteractionCreate scm1 s i).result = (HandleInteractionCreate scm2 s i).result := by
  unfold HandleInteractionCreate
  rw [h]
  rcases findRelevantFeature i scm2.Features with _ | _ | _ <;> rfl

theorem runOps_dispatches {η ρ : Type} (R : Remote ρ)
    (earlier : List (Session × InteractionCreate)) (scm : SCM η) (w : ρ) :
    (runOps R (earlier.map (fun p => Op.handleInteractionCreate p.1 p.2)) scm w).1 = scm
      ∧ (runOps R (earlier.map (fun p => Op.handleInteractionCreate p.1 p.2)) scm w).2.1
          = w := by
  induction earlier with
  | nil => exact ⟨rfl, rfl⟩
  | cons p ps ih =>
    simp only [List.map_cons, runOps, Op.apply, handleInteractionCreate_scm]
    exact ih

/-- C13.  `HandleInteractionCreate` issues no remote call and returns the router it was
given, registry and bookkeeping, for every registry, bookkeeping and event (matched,
unmatched or failing).  What it invokes depends on the registry and the event only: a
router with the same registry and any other bookkeeping gives the same result, and so
does the router after any number of earlier dispatches, which also leave the remote
state as it was. -/
theorem handleInteractionCreate_is_pure_dispatch {η ρ : Type} (scm : SCM η) (s : Session)
    (i : InteractionCreate) :
    (HandleInteractionCreate scm s i).calls = []
      ∧ (HandleInteractionCreate scm s i).scm = scm
      ∧ (∀ bk : String → Option (List String),
          (HandleInteractionCreate { Features := scm.Features, botCommandIDs := bk } s i).result
            = (HandleInteractionCreate scm s i).result)
      ∧ (∀ (R : Remote ρ) (w : ρ) (earlier : List (Session × InteractionCreate)),
          (runOps R (earlier.map (fun p => Op.handleInteractionCreate p.1 p.2)) scm w).1 = scm
          ∧ (runOps R (earlier.map (fun p => Op.handleInteractionCreate p.1 p.2)) scm w).2.1
              = w
          ∧ (HandleInteractionCreate
              (runOps R (earlier.map (fun p => Op.handleInteractionCreate p.1 p.2)) scm w).1
              s i).result = (HandleInteractionCreate scm s i).result) := by
  refine ⟨handleInteractionCreate_calls scm s i, handleInteractionCreate_scm scm s i,
    fun bk => handleInteractionCreate_result_of_features _ scm s i rfl, ?_⟩
  intro R w earlier
  obtain ⟨h1, h2⟩ := runOps_dispatches R earlier scm w
  exact ⟨h1, h2, by rw [h1]⟩

/-! ## C14: deregistration with nothing recorded -/

theorem createCommands_err_of_unregistered {η ρ : Type} (R : Remote ρ) (scm : SCM η)
    (s : Session) (guildID : String) (w : ρ)
    (h : scm.botCommandIDs s.State.User.ID = none) :
    (CreateCommands R scm s guildID w).err ≠ some errAlreadyRegistered := by
  rcases hR : R.ApplicationCommandBulkOverwrite w s.State.User.ID guildID
      (commandSpecs scm.Features) with ⟨w1, e | created⟩
  · rw [createCommands_of_error R scm s guildID w w1 e h hR]
    simp [errAlreadyRegistered]
  · rw [createCommands_of_ok R scm s guildID w w1 created h hR]
    simp

/-- C14.  When the identity of the session has no bookkeeping entry, or its recorded
list is empty, `DeleteCommands` issues no delete call, returns nil, and leaves the
router and the remote state as they were.  In the first case the identity still has no
entry afterwards, so a `CreateCommands` call for it issues the bulk overwrite and is
not rejected as already registered. -/
theorem deleteCommands_nothing_recorded {η ρ : Type} (R : Remote ρ) (scm : SCM η)
    (s : Session) (guildID : String) (w : ρ)
    (h : scm.botCommandIDs s.State.User.ID = none
      ∨ scm.botCommandIDs s.State.User.ID = some []) :
    (DeleteCommands R scm s guildID w).calls = []
      ∧ (DeleteCommands R scm s guildID w).err = none
      ∧ (DeleteCommands R scm s guildID w).scm = scm
      ∧ (DeleteCommands R scm s guildID w).remote = w
      ∧ (scm.botCommandIDs s.State.User.ID = none →
          (DeleteCommands R scm s guildID w).scm.botCommandIDs s.State.User.ID = none
          ∧ ∀ (guildID2 : String) (w2 : ρ),
              (CreateCommands R (DeleteCommands R scm s guildID w).scm s guildID2 w2).calls
                = [RemoteCall.bulkOverwrite s.State.User.ID guildID2
                    (commandSpecs scm.Features)]
              ∧ (CreateCommands R (DeleteCommands R scm s guildID w).scm s guildID2 w2).err
                ≠ some errAlreadyRegistered) := by
  have hids : recordedIDs scm s.State.User.ID = [] := by
    rcases h with h | h <;> simp [recordedIDs, h]
  refine ⟨?_, ?_, rfl, ?_, ?_⟩
  · simp [DeleteCommands, hids, deleteLoop]
  · simp [DeleteCommands, hids, deleteLoop]
  · simp [DeleteCommands, hids, deleteLoop]
  · intro hnone
    refine ⟨hnone, fun guildID2 w2 => ⟨?_, ?_⟩⟩
    · exact createCommands_calls_of_unregistered R scm s guildID2 w2 hnone
    · exact createCommands_err_of_unregistered R scm s guildID2 w2 hnone

/-- Witness for C14: on the sample router nothing is recorded for "app"; the delete
does nothing and the registration that follows is sent. -/
theorem deleteCommands_nothing_recorded_witness :
    (DeleteCommands sampleRemote sampleSCM sampleSession "guild" 1).calls = []
      ∧ (DeleteCommands sampleRemote sampleSCM sampleSession "guild" 1).err = none
      ∧ (CreateCommands sampleRemote
          (DeleteCommands sampleRemote sampleSCM sampleSession "guild" 1).scm
          sampleSession "guild" 1).calls
          = [RemoteCall.bulkOverwrite "app" "guild"
              [some (sampleCommand "a"), some (sampleCommand "b")]] :=
  ⟨(deleteCommands_nothing_recorded sampleRemote sampleSCM sampleSession "guild" 1
      (Or.inl rfl)).1,
    (deleteCommands_nothing_recorded sampleRemote sampleSCM sampleSession "guild" 1
      (Or.inl rfl)).2.1,
    ((deleteCommands_nothing_recorded sampleRemote sampleSCM sampleSession "guild" 1
      (Or.inl rfl)).2.2.2.2 rfl).2 "guild" 1 |>.1⟩

/-! ## C15: the bookkeeping is kept per identity -/

theorem createCommands_other_entry {η ρ : Type} (R : Remote ρ) (scm : SCM η)
    (s : Session) (guildID : String) (w : ρ) (b : String) (hne : s.State.User.ID ≠ b) :
    (CreateCommands R scm s guildID w).scm.botCommandIDs b = scm.botCommandIDs b := by
  cases hs : scm.botCommandIDs s.State.User.ID with
  | some ids => rw [createCommands_of_registered R scm s guildID w ids hs]
  | none =>
    rcases hR : R.ApplicationCommandBulkOverwrite w s.State.User.ID guildID
        (commandSpecs scm.Features) with ⟨w1, e | created⟩
    · rw [createCommands_of_error R scm s guildID w w1 e hs hR]
    · rw [createCommands_of_ok R scm s guildID w w1 created hs hR]
      simp [setBotCommandIDs, Ne.symm hne]

theorem deleteLoop_calls_mem {ρ : Type} (R : Remote ρ) (appID guildID : String)
    (ids : List String) (w : ρ) (c : RemoteCall)
    (hc : c ∈ (deleteLoop R appID guildID ids w).2.2) :
    ∃ ccID ∈ ids, c = RemoteCall.delete appID guildID ccID := by
  obtain ⟨n, _, hcalls⟩ := deleteLoop_calls_take R appID guildID ids w
  rw [hcalls, List.mem_map] at hc
  obtain ⟨ccID, hmem, hq⟩ := hc
  exact ⟨ccID, List.mem_of_mem_take hmem, hq.symm⟩

/-- C15.  Let the session `sa` have an identity other than `b`.  A `CreateCommands`
call made with `sa`, whatever the platform answers, leaves the bookkeeping entry of `b`
(or its absence) and the registry as they were.  So when `b` had no entry, a
`CreateCommands` call for `b` on the resulting router issues its bulk overwrite and is
not rejected as already registered; and every delete call of a `DeleteCommands` call
for `b` on the resulting router is for an id that was recorded under `b`. -/
theorem bookkeeping_is_per_identity {η ρ : Type} (R : Remote ρ) (scm : SCM η)
    (sa : Session) (guildID : String) (w : ρ) (b : String)
    (hne : sa.State.User.ID ≠ b) :
    (CreateCommands R scm sa guildID w).scm.botCommandIDs b = scm.botCommandIDs b
      ∧ (CreateCommands R scm sa guildID w).scm.Features = scm.Features
      ∧ (scm.botCommandIDs b = none →
          ∀ (sb : Session) (guildID2 : String) (w2 : ρ), sb.State.User.ID = b →
            (CreateCommands R (CreateCommands R scm sa guildID w).scm sb guildID2 w2).calls
              = [RemoteCall.bulkOverwrite b guildID2 (commandSpecs scm.Features)]
            ∧ (CreateCommands R (CreateCommands R scm sa guildID w).scm sb guildID2 w2).err
              ≠ some errAlreadyRegistered)
      ∧ (∀ (sb : Session) (guildID2 : String) (w2 : ρ), sb.State.User.ID = b →
          ∀ c ∈ (DeleteCommands R (CreateCommands R scm sa guildID w).scm sb guildID2 w2).calls,
            ∃ ccID ∈ recordedIDs scm b, c = RemoteCall.delete b guildID2 ccID) := by
  have hentry := createCommands_other_entry R scm sa guildID w b hne
  have hfeat := createCommands_features R scm sa guildID w
  refine ⟨hentry, hfeat, ?_, ?_⟩
  · intro hnone sb guildID2 w2 hb
    subst hb
    have h2 : (CreateCommands R scm sa guildID w).scm.botCommandIDs sb.State.User.ID
        = none := by rw [hentry, hnone]
    refine ⟨?_, createCommands_err_of_unregistered R _ sb guildID2 w2 h2⟩
    rw [createCommands_calls_of_unregistered R _ sb guildID2 w2 h2, hfeat]
  · intro sb guildID2 w2 hb c hc
    subst hb
    have hrec : recordedIDs (CreateCommands R scm sa guildID w).scm sb.State.User.ID
        = recordedIDs scm sb.State.User.ID := by
      simp [recordedIDs, hentry]
    have hc2 : c ∈ (deleteLoop R sb.State.User.ID guildID2
        (recordedIDs scm sb.State.User.ID) w2).2.2 := by
      simpa [DeleteCommands, hrec] using hc
    exact deleteLoop_calls_mem R _ guildID2 _ w2 c hc2

/-- Witness for C15: "app" registers on the sample router; "other" still has no entry
and its own registration is sent and accepted. -/
theorem bookkeeping_is_per_identity_witness :
    (CreateCommands sampleRemote sampleSCM sampleSession "guild" 1).err = none
      ∧ (CreateCommands sampleRemote sampleSCM sampleSession "guild" 1).scm.botCommandIDs
          "other" = none
      ∧ (CreateCommands sampleRemote
          (CreateCommands sampleRemote sampleSCM sampleSession "guild" 1).scm
          otherSession "guild" 2).calls
          = [RemoteCall.bulkOverwrite "other" "guild"
              [some (sampleCommand "a"), some (sampleCommand "b")]]
      ∧ (CreateCommands sampleRemote
          (CreateCommands sampleRemote sampleSCM sampleSession "guild" 1).scm
          otherSession "guild" 2).err = none :=
  ⟨rfl,
    (bookkeeping_is_per_identity sampleRemote sampleSCM sampleSession "guild" 1 "other"
      (by decide)).1,
    ((bookkeeping_is_per_identity sampleRemote sampleSCM sampleSession "guild" 1 "other"
      (by decide)).2.2.1 rfl otherSession "guild" 2 rfl).1,
    rfl⟩

/-! ## C16: overlapping registrations -/

theorem stepCreateCommands_check_registered {η ρ : Type} (R : Remote ρ) (c : Call)
    (σ : World η ρ) (ids : List String) (hp : c.phase = Phase.atCheck)
    (h : σ.scm.botCommandIDs c.s.State.User.ID = some ids) :
    stepCreateCommands R c σ
      = ({ c with phase := Phase.returned (some errAlreadyRegistered) }, σ) := by
  simp [stepCreateCommands, hp, h, errAlreadyRegistered]

theorem stepCreateCommands_check_unregistered {η ρ : Type} (R : Remote ρ) (c : Call)
    (σ : World η ρ) (hp : c.phase = Phase.atCheck)
    (h : σ.scm.botCommandIDs c.s.State.User.ID = none) :
    stepCreateCommands R c σ = ({ c with phase := Phase.atOverwrite }, σ) := by
  simp [stepCreateCommands, hp, h]

theorem stepCreateCommands_overwrite {η ρ : Type} (R : Remote ρ) (c : Call)
    (σ : World η ρ) (hp : c.phase = Phase.atOverwrite) :
    (stepCreateCommands R c σ).2.calls
        = σ.calls ++ [RemoteCall.bulkOverwrite c.s.State.User.ID c.guildID
            (commandSpecs σ.scm.Features)]
      ∧ (stepCreateCommands R c σ).2.scm = σ.scm
      ∧ (stepCreateCommands R c σ).2.remote
          = (R.ApplicationCommandBulkOverwrite σ.remote c.s.State.User.ID c.guildID
              (commandSpecs σ.scm.Features)).1
      ∧ (stepCreateCommands R c σ).1.phase
          ≠ Phase.returned (some errAlreadyRegistered) := by
  simp only [stepCreateCommands, hp, collectApplicationCommands_eq, List.nil_append]
  rcases R.ApplicationCommandBulkOverwrite σ.remote c.s.State.User.ID c.guildID
      (commandSpecs σ.scm.Features) with ⟨w1, e | created⟩
  · simp [errAlreadyRegistered]
  · simp

theorem stepCreateCommands_args {η ρ : Type} (R : Remote ρ) (c : Call) (σ : World η ρ) :
    (stepCreateCommands R c σ).1.s = c.s
      ∧ (stepCreateCommands R c σ).1.guildID = c.guildID := by
  unfold stepCreateCommands
  cases c.phase with
  | atCheck => cases σ.scm.botCommandIDs c.s.State.User.ID <;> exact ⟨rfl, rfl⟩
  | atOverwrite =>
    simp only []
    rcases R.ApplicationCommandBulkOverwrite σ.remote c.s.State.User.ID c.guildID
      (collectApplicationCommands σ.scm.Features []) with ⟨w1, e | created⟩ <;> exact ⟨rfl, rfl⟩
  | atRecord created => exact ⟨rfl, rfl⟩
  | returned err => exact ⟨rfl, rfl⟩

theorem stepCreateCommands_keeps_entry {η ρ : Type} (R : Remote ρ) (c : Call)
    (σ : World η ρ) (k : String) (h : σ.scm.botCommandIDs k ≠ none) :
    (stepCreateCommands R c σ).2.scm.botCommandIDs k ≠ none := by
  unfold stepCreateCommands
  cases c.phase with
  | atCheck => cases σ.scm.botCommandIDs c.s.State.User.ID <;> exact h
  | atOverwrite =>
    simp only []
    rcases R.ApplicationCommandBulkOverwrite σ.remote c.s.State.User.ID c.guildID
      (collectApplicationCommands σ.scm.Features []) with ⟨w1, e | created⟩ <;> exact h
  | atRecord created =>
    simp only [setBotCommandIDs]
    by_cases hk : k = c.s.State.User.ID
    · simp [hk]
    · simp [hk, h]
  | returned err => exact h

theorem stepCreateCommands_returned_nil {η ρ : Type} (R : Remote ρ) (c : Call)
    (σ : World η ρ)
    (hold : c.phase = Phase.returned none → σ.scm.botCommandIDs c.s.State.User.ID ≠ none)
    (h : (stepCreateCommands R c σ).1.phase = Phase.returned none) :
    (stepCreateCommands R c σ).2.scm.botCommandIDs c.s.State.User.ID ≠ none := by
  cases hp : c.phase with
  | atCheck =>
    cases he : σ.scm.botCommandIDs c.s.State.User.ID with
    | none => simp [stepCreateCommands, hp, he] at h
    | some ids => simp [stepCreateCommands, hp, he] at h
  | atOverwrite =>
    simp only [stepCreateCommands, hp] at h
    rcases hR : R.ApplicationCommandBulkOverwrite σ.remote c.s.State.User.ID c.guildID
      (collectApplicationCommands σ.scm.Features []) with ⟨w1, e | created⟩ <;>
      simp [hR] at h
  | atRecord created => simp [stepCreateCommands, hp, setBotCommandIDs]
  | returned err =>
    have h2 : c.phase = Phase.returned none := by
      simpa [stepCreateCommands, hp] using h
    simpa [stepCreateCommands, hp] using hold h2

theorem step_recorded {η ρ : Type} (R : Remote ρ) (σ : Concurrent η ρ) (t : Bool)
    (h : σ.Recorded) : (σ.step R t).Recorded := by
  intro u hu
  by_cases hut : u = t
  · subst hut
    simp only [Concurrent.step, if_true] at hu ⊢
    rw [(stepCreateCommands_args R (σ.thread u) σ.world).1]
    exact stepCreateCommands_returned_nil R (σ.thread u) σ.world (h u) hu
  · simp only [Concurrent.step, hut, if_false] at hu ⊢
    exact stepCreateCommands_keeps_entry R (σ.thread t) σ.world _ (h u hu)

theorem run_recorded {η ρ : Type} (R : Remote ρ) (sched : List Bool) (σ : Concurrent η ρ)
    (h : σ.Recorded) : (Concurrent.run R sched σ).Recorded := by
  induction sched generalizing σ with
  | nil => exact h
  | cons t ts ih => exact ih (σ.step R t) (step_recorded R σ t h)

theorem run_args {η ρ : Type} (R : Remote ρ) (sched : List Bool) (σ : Concurrent η ρ)
    (u : Bool) : ((Concurrent.run R sched σ).thread u).s = (σ.thread u).s := by
  induction sched generalizing σ with
  | nil => rfl
  | cons t ts ih =>
    rw [Concurrent.run, ih (σ.step R t)]
    by_cases hut : u = t
    · subst hut
      simp only [Concurrent.step, if_true]
      exact (stepCreateCommands_args R (σ.thread u) σ.world).1
    · simp only [Concurrent.step, hut, if_false]

theorem start_recorded {η ρ : Type} (scm : SCM η) (w : ρ) (sA : Session) (guildA : String)
    (sB : Session) (guildB : String) :
    (Concurrent.start scm w sA guildA sB guildB).Recorded := by
  intro t ht
  cases t <;> simp [Concurrent.start] at ht

theorem run_alone_eq_createCommands {η ρ : Type} (R : Remote ρ) (scm : SCM η) (w : ρ)
    (sA : Session) (guildA : String) (sB : Session) (guildB : String) :
    ((Concurrent.run R [false, false, false]
        (Concurrent.start scm w sA guildA sB guildB)).thread false).phase
        = Phase.returned (CreateCommands R scm sA guildA w).err
      ∧ (Concurrent.run R [false, false, false]
          (Concurrent.start scm w sA guildA sB guildB)).world.scm
          = (CreateCommands R scm sA guildA w).scm
      ∧ (Concurrent.run R [false, false, false]
          (Concurrent.start scm w sA guildA sB guildB)).world.remote
          = (CreateCommands R scm sA guildA w).remote
      ∧ (Concurrent.run R [false, false, false]
          (Concurrent.start scm w sA guildA sB guildB)).world.calls
          = (CreateCommands R scm sA guildA w).calls := by
  cases h : scm.botCommandIDs sA.State.User.ID with
  | some ids =>
    simp [Concurrent.run, Concurrent.step, Concurrent.start, stepCreateCommands,
      CreateCommands, h]
  | none =>
    rcases hR : R.ApplicationCommandBulkOverwrite w sA.State.User.ID guildA
        (collectApplicationCommands scm.Features []) with ⟨w1, e | created⟩
    · simp [Concurrent.run, Concurrent.step, Concurrent.start, stepCreateCommands,
        CreateCommands, h, hR]
    · simp [Concurrent.run, Concurrent.step, Concurrent.start, stepCreateCommands,
        CreateCommands, h, hR]

theorem start_identity {η ρ : Type} (scm : SCM η) (w : ρ) (sA : Session) (guildA : String)
    (sB : Session) (guildB : String) (hid : sA.State.User.ID = sB.State.User.ID)
    (u : Bool) :
    ((Concurrent.start scm w sA guildA sB guildB).thread u).s.State.User.ID
      = sA.State.User.ID := by
  cases u
  · rfl
  · exact hid.symm

theorem run_both_checks_first {η ρ : Type} (R : Remote ρ) (scm : SCM η) (w : ρ)
    (sA : Session) (guildA : String) (sB : Session) (guildB : String)
    (hA : scm.botCommandIDs sA.State.User.ID = none)
    (hB : scm.botCommandIDs sB.State.User.ID = none) :
    (Concurrent.run R [false, true, false, true]
        (Concurrent.start scm w sA guildA sB guildB)).world.calls
        = [RemoteCall.bulkOverwrite sA.State.User.ID guildA (commandSpecs scm.Features),
           RemoteCall.bulkOverwrite sB.State.User.ID guildB (commandSpecs scm.Features)]
      ∧ ((Concurrent.run R [false, true, false, true]
          (Concurrent.start scm w sA guildA sB guildB)).thread false).phase
          ≠ Phase.returned (some errAlreadyRegistered)
      ∧ ((Concurrent.run R [false, true, false, true]
          (Concurrent.start scm w sA guildA sB guildB)).thread true).phase
          ≠ Phase.returned (some errAlreadyRegistered) := by
  rcases hRA : R.ApplicationCommandBulkOverwrite w sA.State.User.ID guildA
      (commandSpecs scm.Features) with ⟨w1, e1 | created1⟩ <;>
    rcases hRB : R.ApplicationCommandBulkOverwrite w1 sB.State.User.ID guildB
      (commandSpecs scm.Features) with ⟨w2, e2 | created2⟩ <;>
    simp [Concurrent.run, Concurrent.step, Concurrent.start, stepCreateCommands, hA, hB,
      hRA, hRB, collectApplicationCommands_eq, errAlreadyRegistered]

/-- C16, as amended.  `CreateCommands` holds no lock: it is the check of the map, then
the bulk overwrite, then the write of the map, three steps that another call may run
between (run alone, the three steps are `CreateCommands`).  (1) In every interleaving
of two calls for one identity, a call whose check runs after the other call has
returned nil gets the already-registered error and issues no remote call: calls that do
not overlap are safe.  (2) When the identities have no entry and both checks run before
either bulk overwrite, both calls pass the check and both issue the bulk overwrite. -/
theorem createCommands_takes_no_lock {η ρ : Type} (R : Remote ρ) (scm : SCM η) (w : ρ)
    (sA : Session) (guildA : String) (sB : Session) (guildB : String) :
    (((Concurrent.run R [false, false, false]
          (Concurrent.start scm w sA guildA sB guildB)).thread false).phase
          = Phase.returned (CreateCommands R scm sA guildA w).err
        ∧ (Concurrent.run R [false, false, false]
            (Concurrent.start scm w sA guildA sB guildB)).world.scm
            = (CreateCommands R scm sA guildA w).scm
        ∧ (Concurrent.run R [false, false, false]
            (Concurrent.start scm w sA guildA sB guildB)).world.remote
            = (CreateCommands R scm sA guildA w).remote
        ∧ (Concurrent.run R [false, false, false]
            (Concurrent.start scm w sA guildA sB guildB)).world.calls
            = (CreateCommands R scm sA guildA w).calls)
      ∧ (sA.State.User.ID = sB.State.User.ID →
          ∀ (sched : List Bool) (t : Bool),
            ((Concurrent.run R sched
                (Concurrent.start scm w sA guildA sB guildB)).thread (!t)).phase
              = Phase.returned none →
            ((Concurrent.run R sched
                (Concurrent.start scm w sA guildA sB guildB)).thread t).phase
              = Phase.atCheck →
            (((Concurrent.run R sched
                (Concurrent.start scm w sA guildA sB guildB)).step R t).thread t).phase
                = Phase.returned (some errAlreadyRegistered)
              ∧ ((Concurrent.run R sched
                  (Concurrent.start scm w sA guildA sB guildB)).step R t).world.calls
                = (Concurrent.run R sched
                    (Concurrent.start scm w sA guildA sB guildB)).world.calls
              ∧ ((Concurrent.run R sched
                  (Concurrent.start scm w sA guildA sB guildB)).step R t).world.scm
                = (Concurrent.run R sched
                    (Concurrent.start scm w sA guildA sB guildB)).world.scm)
      ∧ (scm.botCommandIDs sA.State.User.ID = none →
          scm.botCommandIDs sB.State.User.ID = none →
          (Concurrent.run R [false, true, false, true]
              (Concurrent.start scm w sA guildA sB guildB)).world.calls
              = [RemoteCall.bulkOverwrite sA.State.User.ID guildA (commandSpecs scm.Features),
                 RemoteCall.bulkOverwrite sB.State.User.ID guildB (commandSpecs scm.Features)]
            ∧ ((Concurrent.run R [false, true, false, true]
                (Concurrent.start scm w sA guildA sB guildB)).thread false).phase
                ≠ Phase.returned (some errAlreadyRegistered)
            ∧ ((Concurrent.run R [false, true, false, true]
                (Concurrent.start scm w sA guildA sB guildB)).thread true).phase
                ≠ Phase.returned (some errAlreadyRegistered)) := by
  refine ⟨run_alone_eq_createCommands R scm w sA guildA sB guildB, ?_,
    run_both_checks_first R scm w sA guildA sB guildB⟩
  intro hid sched t hret hchk
  have hrec := run_recorded R sched _ (start_recorded scm w sA guildA sB guildB)
  have hentry := hrec (!t) hret
  have hsame : ((Concurrent.run R sched
      (Concurrent.start scm w sA guildA sB guildB)).thread (!t)).s.State.User.ID
      = ((Concurrent.run R sched
          (Concurrent.start scm w sA guildA sB guildB)).thread t).s.State.User.ID := by
    rw [run_args, run_args, start_identity scm w sA guildA sB guildB hid,
      start_identity scm w sA guildA sB guildB hid]
  rw [hsame] at hentry
  obtain ⟨ids, hids⟩ := Option.ne_none_iff_exists'.1 hentry
  have hstep := stepCreateCommands_check_registered R _ _ ids hchk hids
  simp [Concurrent.step, hstep]

/-- Witness for C16: two calls for "app" on the sample router, one after the other.
The first runs its three steps and returns nil; the second then runs its check and is
rejected, and the trace still holds the one bulk overwrite. -/
theorem createCommands_takes_no_lock_witness :
    (((Concurrent.run sampleRemote [false, false, false]
        (Concurrent.start sampleSCM 1 sampleSession "guild" sampleSession "guild")).step
          sampleRemote true).thread true).phase
        = Phase.returned (some errAlreadyRegistered)
      ∧ ((Concurrent.run sampleRemote [false, false, false]
          (Concurrent.start sampleSCM 1 sampleSession "guild" sampleSession "guild")).step
            sampleRemote true).world.calls
          = [RemoteCall.bulkOverwrite "app" "guild"
              [some (sampleCommand "a"), some (sampleCommand "b")]] :=
  ⟨((createCommands_takes_no_lock sampleRemote sampleSCM 1 sampleSession "guild"
      sampleSession "guild").2.1 rfl [false, false, false] true rfl rfl).1,
    ((createCommands_takes_no_lock sampleRemote sampleSCM 1 sampleSession "guild"
      sampleSession "guild").2.1 rfl [false, false, false] true rfl rfl).2.1⟩

/-- C16 as stated fails: nothing keeps two calls apart.  Two calls for "app" on the
sample router take their steps in turn (check, check, overwrite, overwrite, record,
record): both pass the already-registered check, both issue the bulk overwrite, and
both return nil. -/
theorem createCommands_overlapping_calls_both_register :
    ((Concurrent.run sampleRemote [false, true]
        (Concurrent.start sampleSCM 1 sampleSession "guild" sampleSession "guild")).thread
          false).phase = Phase.atOverwrite
      ∧ ((Concurrent.run sampleRemote [false, true]
        (Concurrent.start sampleSCM 1 sampleSession "guild" sampleSession "guild")).thread
          true).phase = Phase.atOverwrite
      ∧ (Concurrent.run sampleRemote [false, true, false, true, false, true]
          (Concurrent.start sampleSCM 1 sampleSession "guild" sampleSession "guild")).world.calls
          = [RemoteCall.bulkOverwrite "app" "guild"
              [some (sampleCommand "a"), some (sampleCommand "b")],
             RemoteCall.bulkOverwrite "app" "guild"
              [some (sampleCommand "a"), some (sampleCommand "b")]]
      ∧ ((Concurrent.run sampleRemote [false, true, false, true, false, true]
          (Concurrent.start sampleSCM 1 sampleSession "guild" sampleSession "guild")).thread
            false).phase = Phase.returned none
      ∧ ((Concurrent.run sampleRemote [false, true, false, true, false, true]
          (Concurrent.start sampleSCM 1 sampleSession "guild" sampleSession "guild")).thread
            true).phase = Phase.returned none := by
  refine ⟨rfl, rfl, rfl, rfl, rfl⟩

end DiscordgoScm
